import Mathlib

/-!
Shallow embedding of the NeuroMorphoVis skeleton resampling core
(src/neuromorphovis/skeleton/ops/skeleton_resampling_ops.py and
src/neuromorphovis/skeleton/structure/section.py), together with proofs
about the resampling operations.

Modelling conventions:
* Python floats are idealised as real numbers (`ℝ`); `mathutils.Vector`
  becomes `Vec3` with componentwise arithmetic, `length` the Euclidean
  norm and `normalized` division by the length (a zero vector normalises
  to the zero vector, as in `mathutils`).
* Python lists become `List`; `list.insert`/`list.remove` become
  `List.insertIdx`/`List.eraseIdx`.  Python's `list.remove(x)` removes by
  object identity; all removals in this code target a distinct list
  element, so removal by position is the faithful translation.
* Python indexing (including negative indices and `IndexError`) is
  modelled by `pyGet`; an uncaught exception is the `PRes.exn` outcome,
  which carries the section state at the moment the exception escapes.
* `nmv.logger.log` calls become accumulated `Diag` values.
* The unbounded `while` loops of `resample_sections` and
  `resample_section_stem` are modelled with an explicit fuel parameter;
  exhausting the fuel yields the `PRes.spin` outcome, so a terminating
  run is one that produces `PRes.ok`/`PRes.exn` for some fuel.
-/

open Classical

noncomputable section

/-- A 3D vector standing for `mathutils.Vector`. -/
structure Vec3 where
  x : ℝ
  y : ℝ
  z : ℝ

instance : Add Vec3 := ⟨fun a b => ⟨a.x + b.x, a.y + b.y, a.z + b.z⟩⟩

instance : Sub Vec3 := ⟨fun a b => ⟨a.x - b.x, a.y - b.y, a.z - b.z⟩⟩

instance : SMul ℝ Vec3 := ⟨fun c v => ⟨c * v.x, c * v.y, c * v.z⟩⟩

/-- `mathutils.Vector.length`: the Euclidean norm. -/
def Vec3.length (v : Vec3) : ℝ := Real.sqrt (v.x ^ 2 + v.y ^ 2 + v.z ^ 2)

/-- `mathutils.Vector.normalized()`: the unit vector in the same direction;
`mathutils` returns the zero vector when normalising a zero vector. -/
def Vec3.normalized (v : Vec3) : Vec3 :=
  if v.length = 0 then ⟨0, 0, 0⟩ else (1 / v.length) • v

/-- Modelled from the spec (§3): the `Sample` class is not under `src/`.
A sample is a 3D point, a scalar radius and an integer id (`-1` marks an
auxiliary sample inserted by resampling).  The back-reference
`sample.section` and the `morphology_id` field are never read by the
resampling operations and are omitted. -/
structure Sample where
  point : Vec3
  radius : ℝ
  id : ℤ

instance : Inhabited Sample := ⟨⟨⟨0, 0, 0⟩, 0, 0⟩⟩

/-- A non-owning reference to a child section; the orchestrator only ever
reads a child's `samples`, so only that field is modelled. -/
structure Child where
  samples : List Sample

/-- The `Section` class of
src/neuromorphovis/skeleton/structure/section.py.  `hasParentRef` models
whether the resolved `self.parent` reference is present (`parent is not
None`); `is_short` is modelled from the spec (§3): the flag is set by
preprocessing code outside `src/` and only read here. -/
structure Section where
  id : ℤ
  parent_id : Option ℤ
  children_ids : List ℤ
  samples : List Sample
  type : ℤ
  hasParentRef : Bool
  children : List Child
  is_primary : Bool
  is_short : Bool

/-- `Section.get_type_string` (section.py lines 112-126). -/
def Section.get_type_string (s : Section) : String :=
  if s.type = 2 then "AXON"
  else if s.type = 3 then "BASAL_DENDRITE"
  else if s.type = 4 then "APICAL_DENDRITE"
  else "UNKNOWN_BRANCH_TYPE"

/-- `Section.has_parent` (section.py lines 198-208): both the parent id and
the resolved parent reference must be present. -/
def Section.has_parent (s : Section) : Bool :=
  s.parent_id.isSome && s.hasParentRef

/-- `Section.has_children` (section.py lines 183-193). -/
def Section.has_children (s : Section) : Bool :=
  decide (0 < s.children_ids.length) || decide (0 < s.children.length)

/-- The `enumerate`-and-assign loop of `Section.reorder_samples`
(section.py lines 213-222). -/
def renumberFrom : ℤ → List Sample → List Sample
  | _, [] => []
  | i, x :: rest => { x with id := i } :: renumberFrom (i + 1) rest

/-- `Section.reorder_samples` (section.py lines 213-222): reassign each
sample's id to its position along the section. -/
def Section.reorder_samples (s : Section) : Section :=
  { s with samples := renumberFrom 0 s.samples }

/-- Python list indexing: non-negative indices from the front, negative
indices from the back, `none` when the index is out of range
(an `IndexError` in Python). -/
def pyGet {α : Type} (l : List α) (i : ℤ) : Option α :=
  if 0 ≤ i then l[i.toNat]?
  else if 0 ≤ i + l.length then l[(i + l.length).toNat]? else none

/-- One diagnostic message sent through `nmv.logger.log`.  The payloads the
claims inspect (the two-sample warning's length and combined diameters)
are retained; other messages are represented by their kind alone. -/
inductive Diag where
  | errNoSamples
  | errOneSample
  | warnTwoSamples (sectionLength diameters : ℝ)
  | badSection
  | errLessThanThree
  | warnOnlyTwo
  | resamplingFront (id : ℤ)
  | removedFrontCount (n : ℕ)
  | resamplingRear (id : ℤ)
  | removedRearCount (n : ℕ)
  | repairingInternal
  | cannotResample (id : ℤ)

/-- The kind of an uncaught Python exception. -/
inductive PyExn where
  | indexError
  | valueError
  | zeroDivisionError
deriving DecidableEq

/-- Outcome of running one resampling operation: normal return (`ok`),
an uncaught exception escaping with the section in state `state` (`exn`),
or fuel exhaustion of a modelled `while` loop (`spin`). -/
inductive PRes (α : Type) where
  | ok (val : α) (log : List Diag)
  | exn (kind : PyExn) (state : α) (log : List Diag)
  | spin

/-- Sequencing of operations on a section: an exception or fuel exhaustion
in the first operation propagates; logs accumulate. -/
def PRes.andThen {α : Type} : PRes α → (α → PRes α) → PRes α
  | PRes.ok v l, f =>
    match f v with
    | PRes.ok v' l' => PRes.ok v' (l ++ l')
    | PRes.exn k t l' => PRes.exn k t (l ++ l')
    | PRes.spin => PRes.spin
  | PRes.exn k t l, _ => PRes.exn k t l
  | PRes.spin, _ => PRes.spin

/-- All section states observable in an outcome satisfy `P`. -/
def PRes.allStates {α : Type} (P : α → Prop) : PRes α → Prop
  | PRes.ok v _ => P v
  | PRes.exn _ t _ => P t
  | PRes.spin => True

/-- Modelled from the spec: `nmv.consts.Math.EPSILON` is not under `src/`.
The spec (§4.2) inserts the auxiliary far-gap sample "at distance
`resampling_distance · EPSILON`", and the source comment (line 97) calls
this adding the sample "at the exact distance", so the factor is just
below one. -/
def Math.EPSILON : ℝ := 99 / 100

/-- Modelled from the spec (§8): `nmv.geometry.ops.is_point_inside_sphere`
is not under `src/`; membership is strict distance-to-center < radius. -/
def is_point_inside_sphere (sphere_center : Vec3) (sphere_radius : ℝ) (point : Vec3) : Prop :=
  (point - sphere_center).length < sphere_radius

/-- The list of consecutive inter-sample distances along a section. -/
def gapList : List Sample → List ℝ
  | [] => []
  | [_] => []
  | a :: b :: rest => (b.point - a.point).length :: gapList (b :: rest)

/-- Modelled from the spec (§4.8): `nmv.skeleton.ops.compute_section_length`
is not under `src/`; the arclength is the sum of consecutive inter-sample
distances. -/
def compute_section_length (s : Section) : ℝ := (gapList s.samples).sum

/-- Modelled from the spec (§4.7): `compute_section_length_until_sample` is
not under `src/`; the cumulative arclength from the start up to the given
sample index. -/
def compute_section_length_until_sample (s : Section) (i : ℕ) : ℝ :=
  (gapList (s.samples.take (i + 1))).sum

/-- Outcome of one iteration of the `while` loop of `resample_sections`
(skeleton_resampling_ops.py lines 88-146). -/
inductive StepRes where
  | brk (samples : List Sample)
  | oob (samples : List Sample)
  | inserted (samples : List Sample)
  | moved (i : ℕ)

/-- One iteration of the scan loop of `resample_sections`
(skeleton_resampling_ops.py lines 88-146): break at the last sample;
insert an auxiliary sample after index `i` when the gap exceeds twice the
resampling distance (at distance `resampling_distance · EPSILON`, line
106) or lies strictly between one and two resampling distances (at the
midpoint, line 128); otherwise advance. -/
def resampleStep (resampling_distance : ℝ) (i : ℕ) (samples : List Sample) : StepRes :=
  if (i : ℤ) = (samples.length : ℤ) - 1 then StepRes.brk samples
  else if h : i + 1 < samples.length then
    let a := samples.get ⟨i, Nat.lt_of_succ_lt h⟩
    let b := samples.get ⟨i + 1, h⟩
    let distance := (b.point - a.point).length
    if distance > resampling_distance * 2 then
      let direction := (b.point - a.point).normalized
      let sample_point := a.point + (resampling_distance * Math.EPSILON) • direction
      let sample_radius := (b.radius + a.radius) * 0.5
      StepRes.inserted (samples.insertIdx (i + 1) ⟨sample_point, sample_radius, -1⟩)
    else if distance > resampling_distance ∧ distance < resampling_distance * 2 then
      let direction := (b.point - a.point).normalized
      let sample_point := a.point + (distance * 0.5) • direction
      let sample_radius := (b.radius + a.radius) * 0.5
      StepRes.inserted (samples.insertIdx (i + 1) ⟨sample_point, sample_radius, -1⟩)
    else StepRes.moved (i + 1)
  else StepRes.oob samples

/-- The fuelled `while` loop of `resample_sections`: after every insertion
the scan index restarts at 0 (lines 119 and 141). -/
def resampleLoop (resampling_distance : ℝ) : ℕ → ℕ → List Sample → PRes (List Sample)
  | 0, _, _ => PRes.spin
  | fuel + 1, i, samples =>
    match resampleStep resampling_distance i samples with
    | StepRes.brk s' => PRes.ok s' []
    | StepRes.oob s' => PRes.exn PyExn.indexError s' []
    | StepRes.inserted s' => resampleLoop resampling_distance fuel 0 s'
    | StepRes.moved j => resampleLoop resampling_distance fuel j samples

/-- `resample_sections` (skeleton_resampling_ops.py lines 40-149): error
out on 0- or 1-sample sections, warn on 2-sample sections (flagging a bad
section when the length is below the combined diameters), then run the
scan loop and renumber the samples. -/
def resample_sections (fuel : ℕ) (s : Section) (resampling_distance : ℝ) : PRes Section :=
  match s.samples with
  | [] => PRes.ok s [Diag.errNoSamples]
  | [_] => PRes.ok s [Diag.errOneSample]
  | a :: b :: rest =>
    let log0 : List Diag :=
      if rest.isEmpty then
        let section_length := (b.point - a.point).length
        let diameters := (b.radius + a.radius) * 2
        Diag.warnTwoSamples section_length diameters ::
          (if section_length < diameters then [Diag.badSection] else [])
      else []
    match resampleLoop resampling_distance fuel 0 s.samples with
    | PRes.ok t l => PRes.ok (Section.reorder_samples { s with samples := t }) (log0 ++ l)
    | PRes.exn k t l => PRes.exn k { s with samples := t } (log0 ++ l)
    | PRes.spin => PRes.spin

/-- `add_sample_at_section_center` (skeleton_resampling_ops.py lines
155-182): only for sections with exactly two samples, insert the averaged
midpoint sample and renumber. -/
def add_sample_at_section_center (s : Section) : Section :=
  match s.samples with
  | [a, b] =>
    let sample_position := (0.5 : ℝ) • (a.point + b.point)
    let sample_radius := (a.radius + b.radius) / 2
    Section.reorder_samples
      { s with samples := s.samples.insertIdx 1 ⟨sample_position, sample_radius, -1⟩ }
  | _ => s

/-- Result of one scan of the `for` loop of `remove_duplicate_samples`:
the loop breaks at index `len - 2`, removes the sample after the first
too-close pair, or hits Python's `IndexError` (only possible on a
1-sample section). -/
inductive DupRes (samples : List Sample) where
  | finished
  | oob
  | removeAt (j : ℕ) (h : j < samples.length)

/-- The scan of `remove_duplicate_samples` (skeleton_resampling_ops.py
lines 200-214): walk the samples, break at index `len(samples) - 2`, and
report the first adjacent pair at distance below the threshold. -/
def dupScan (threshold : ℝ) (samples : List Sample) (i : ℕ) : DupRes samples :=
  if samples.length ≤ i then DupRes.finished
  else if (i : ℤ) = (samples.length : ℤ) - 2 then DupRes.finished
  else if h : i + 1 < samples.length then
    let a := samples.get ⟨i, Nat.lt_of_succ_lt h⟩
    let b := samples.get ⟨i + 1, h⟩
    if (b.point - a.point).length < threshold then DupRes.removeAt (i + 1) h
    else dupScan threshold samples (i + 1)
  else DupRes.oob
  termination_by samples.length - i

/-- `remove_duplicate_samples` (skeleton_resampling_ops.py lines 188-220)
on the samples list: when a pair closer than the threshold is found, the
second sample of the pair is removed, the whole function recurses on the
shorter list, and the current scan stops. -/
def dupGo (threshold : ℝ) (samples : List Sample) : PRes (List Sample) :=
  match dupScan threshold samples 0 with
  | DupRes.finished => PRes.ok samples []
  | DupRes.oob => PRes.exn PyExn.indexError samples []
  | DupRes.removeAt j h => dupGo threshold (samples.eraseIdx j)
  termination_by samples.length
  decreasing_by
    have := List.length_eraseIdx_of_lt h
    omega

/-- `remove_duplicate_samples` (skeleton_resampling_ops.py lines 188-220). -/
def remove_duplicate_samples (s : Section) (threshold : ℝ) : PRes Section :=
  match dupGo threshold s.samples with
  | PRes.ok t l => PRes.ok { s with samples := t } l
  | PRes.exn k t l => PRes.exn k { s with samples := t } l
  | PRes.spin => PRes.spin

/-- The scan of the general branch of `remove_samples_inside_soma`
(skeleton_resampling_ops.py lines 293-314): the first index (from 1 on)
whose sample is closer to the origin than `minimal_distance`. -/
def somaScan (minimal_distance : ℝ) (samples : List Sample) (i : ℕ) :
    Option { j : ℕ // j < samples.length } :=
  if h : samples.length ≤ i then none
  else if i = 0 then somaScan minimal_distance samples (i + 1)
  else
    if (samples.get ⟨i, Nat.lt_of_not_le h⟩).point.length < minimal_distance then
      some ⟨i, Nat.lt_of_not_le h⟩
    else somaScan minimal_distance samples (i + 1)
  termination_by samples.length - i

/-- The recursion of `remove_samples_inside_soma` on the samples list
(skeleton_resampling_ops.py lines 248-314); the `has_parent` guard of the
enclosing function is invariant across the recursive calls, so the
recursion acts on the samples alone: error diagnostics for 0/1-sample
sections; flip a reversed 2-sample section; otherwise remove the first
sample (from index 1 on) closer to the origin than the first sample and
recurse. -/
def somaGo (samples : List Sample) : List Sample × List Diag :=
  match samples with
  | [] => ([], [Diag.errNoSamples])
  | [x] => ([x], [Diag.errOneSample])
  | [a, b] =>
    if b.point.length < a.point.length then ([b, a], [Diag.repairingInternal])
    else ([a, b], [])
  | a :: x :: y :: tail =>
    match somaScan a.point.length (a :: x :: y :: tail) 1 with
    | none => (a :: x :: y :: tail, [])
    | some j =>
      let r := somaGo ((a :: x :: y :: tail).eraseIdx j.1)
      (r.1, Diag.repairingInternal :: r.2)
  termination_by samples.length
  decreasing_by
    show ((a :: x :: y :: tail).eraseIdx j.1).length < (a :: x :: y :: tail).length
    have h1 := List.length_eraseIdx_of_lt j.2
    omega

/-- `remove_samples_inside_soma` (skeleton_resampling_ops.py lines
226-314): no-op for non-root sections, otherwise the recursion `somaGo`
on the samples. -/
def remove_samples_inside_soma (s : Section) : Section × List Diag :=
  if s.has_parent then (s, [])
  else
    let r := somaGo s.samples
    ({ s with samples := r.1 }, r.2)

/-- The removal loop of `remove_samples_within_extent`
(skeleton_resampling_ops.py lines 366-384): iterate over a snapshot of
the samples (argument `snap`, with `i` the snapshot index), removing from
the current list (`cur`) each sample inside the sphere; a sample at
snapshot index `i` sits at position `i - removed` of the current list.
The first sample is skipped when `ignore_first_sample` is set. -/
def extentLoop (extent_center : Vec3) (extent_radius : ℝ) (ignore_first_sample : Bool) :
    ℕ → ℕ → List Sample → List Sample → List Sample × ℕ
  | _, removed, cur, [] => (cur, removed)
  | i, removed, cur, x :: snap =>
    if i = 0 ∧ ignore_first_sample = true then
      extentLoop extent_center extent_radius ignore_first_sample (i + 1) removed cur snap
    else if is_point_inside_sphere extent_center extent_radius x.point then
      extentLoop extent_center extent_radius ignore_first_sample
        (i + 1) (removed + 1) (cur.eraseIdx (i - removed)) snap
    else extentLoop extent_center extent_radius ignore_first_sample (i + 1) removed cur snap

/-- `remove_samples_within_extent` (skeleton_resampling_ops.py lines
320-387): guard sections with fewer than three samples (returning 0), and
otherwise remove every sample inside the sphere, returning the updated
section, the number of removed samples and the diagnostics. -/
def remove_samples_within_extent (s : Section) (extent_center : Vec3) (extent_radius : ℝ)
    (ignore_first_sample : Bool) : Section × ℕ × List Diag :=
  if s.samples.length < 2 then (s, 0, [Diag.errLessThanThree])
  else if s.samples.length = 2 then (s, 0, [Diag.warnOnlyTwo])
  else
    let t := extentLoop extent_center extent_radius ignore_first_sample 0 0 s.samples s.samples
    ({ s with samples := t.1 }, t.2, [])

/-- `resample_section_front` (skeleton_resampling_ops.py lines 394-438):
remove all samples (except the first) within `samples[0].radius · √2` of
the first sample, then insert one auxiliary sample at exactly that
distance from the first sample toward the new second sample, and
renumber. -/
def resample_section_front (s : Section) : PRes Section :=
  let log1 : List Diag := [Diag.resamplingFront s.id]
  match pyGet s.samples 0 with
  | none => PRes.exn PyExn.indexError s log1
  | some s0 =>
    let resampling_distance := s0.radius * Real.sqrt 2
    let r := remove_samples_within_extent s s0.point resampling_distance true
    let log2 := log1 ++ r.2.2 ++ (if 0 < r.2.1 then [Diag.removedFrontCount r.2.1] else [])
    match pyGet r.1.samples 1, pyGet r.1.samples 0 with
    | some s1', some s0' =>
      let section_direction := (s1'.point - s0'.point).normalized
      let sample_position := s0'.point + resampling_distance • section_direction
      let auxiliary_sample : Sample := ⟨sample_position, s1'.radius, -1⟩
      PRes.ok
        (Section.reorder_samples { r.1 with samples := r.1.samples.insertIdx 1 auxiliary_sample })
        log2
    | _, _ => PRes.exn PyExn.indexError r.1 log2

/-- `resample_section_rear` (skeleton_resampling_ops.py lines 444-496):
reverse the samples, apply the front-resampling procedure, reverse back
and renumber.  On the exception paths the reversal has not been undone,
exactly as in the source. -/
def resample_section_rear (s : Section) : PRes Section :=
  let sRev : Section := { s with samples := s.samples.reverse }
  let log1 : List Diag := [Diag.resamplingRear s.id]
  match pyGet sRev.samples 0 with
  | none => PRes.exn PyExn.indexError sRev log1
  | some s0 =>
    let resampling_distance := s0.radius * Real.sqrt 2
    let r := remove_samples_within_extent sRev s0.point resampling_distance true
    let log2 := log1 ++ r.2.2 ++ (if 0 < r.2.1 then [Diag.removedRearCount r.2.1] else [])
    match pyGet r.1.samples 1, pyGet r.1.samples 0 with
    | some s1', some s0' =>
      let section_direction := (s1'.point - s0'.point).normalized
      let sample_position := s0'.point + resampling_distance • section_direction
      let auxiliary_sample : Sample := ⟨sample_position, s1'.radius, -1⟩
      PRes.ok
        (Section.reorder_samples
          { r.1 with samples := (r.1.samples.insertIdx 1 auxiliary_sample).reverse })
        log2
    | _, _ => PRes.exn PyExn.indexError r.1 log2

/-- Outcome of one iteration of the `while` loop of
`resample_section_stem` (skeleton_resampling_ops.py lines 528-581). -/
inductive StemStep where
  | brk (samples : List Sample)
  | oob (samples : List Sample)
  | dz (samples : List Sample)
  | inserted (samples : List Sample)
  | removed (samples : List Sample)
  | moved (i : ℕ)

/-- One iteration of the stem-resampling loop (skeleton_resampling_ops.py
lines 528-581): pick the front or rear resampling distance according to
the arclength midpoint, break at index `len - 2`, then insert past
ratio 1.001, remove below ratio 0.999, or advance.  A zero resampling
distance makes Python's float division raise `ZeroDivisionError` (`dz`). -/
def stemStep (front_rd rear_rd section_length : ℝ) (i : ℕ) (samples : List Sample) : StemStep :=
  let current_length := (gapList (samples.take (i + 1))).sum
  let resampling_distance := if current_length < 0.5 * section_length then front_rd else rear_rd
  if (i : ℤ) = (samples.length : ℤ) - 2 then StemStep.brk samples
  else if h : i + 1 < samples.length then
    let a := samples.get ⟨i, Nat.lt_of_succ_lt h⟩
    let b := samples.get ⟨i + 1, h⟩
    let distance := (b.point - a.point).length
    if resampling_distance = 0 then StemStep.dz samples
    else
      let distance_ratio := distance / resampling_distance
      if distance_ratio > 1001 / 1000 then
        let direction := (b.point - a.point).normalized
        let sample_point := a.point + (resampling_distance + 1 / 100000) • direction
        let sample_radius := (b.radius + a.radius) * 0.5
        StemStep.inserted (samples.insertIdx (i + 1) ⟨sample_point, sample_radius, -1⟩)
      else if distance_ratio < 999 / 1000 then
        StemStep.removed (samples.eraseIdx (i + 1))
      else StemStep.moved (i + 1)
  else StemStep.oob samples

/-- The fuelled `while` loop of `resample_section_stem`: after every
structural change the scan index restarts at 1 (lines 569 and 577). -/
def stemLoop (front_rd rear_rd section_length : ℝ) : ℕ → ℕ → List Sample → PRes (List Sample)
  | 0, _, _ => PRes.spin
  | fuel + 1, i, samples =>
    match stemStep front_rd rear_rd section_length i samples with
    | StemStep.brk s' => PRes.ok s' []
    | StemStep.oob s' => PRes.exn PyExn.indexError s' []
    | StemStep.dz s' => PRes.exn PyExn.zeroDivisionError s' []
    | StemStep.inserted s' => stemLoop front_rd rear_rd section_length fuel 1 s'
    | StemStep.removed s' => stemLoop front_rd rear_rd section_length fuel 1 s'
    | StemStep.moved j => stemLoop front_rd rear_rd section_length fuel j samples

/-- `resample_section_stem` (skeleton_resampling_ops.py lines 502-584). -/
def resample_section_stem (fuel : ℕ) (s : Section) : PRes Section :=
  let section_length := compute_section_length s
  match pyGet s.samples 0 with
  | none => PRes.exn PyExn.indexError s []
  | some first =>
    match pyGet s.samples (-1) with
    | none => PRes.exn PyExn.indexError s []
    | some last =>
      let front_resampling_distance := first.radius * 2
      let rear_resampling_distance := last.radius * 2
      match stemLoop front_resampling_distance rear_resampling_distance section_length
          fuel 1 s.samples with
      | PRes.ok t l => PRes.ok (Section.reorder_samples { s with samples := t }) l
      | PRes.exn k t l => PRes.exn k { s with samples := t } l
      | PRes.spin => PRes.spin

/-- The inter-children angle computation of `resample_section_components`
(skeleton_resampling_ops.py lines 637-643): when the section has exactly
two children, read `samples[1]` and `samples[0]` of each child (raising
`IndexError` when a child has fewer than two samples, `samples[1]` being
evaluated first) and compute the angle between the two normalized
outgoing directions (`mathutils.Vector.angle` raises `ValueError` on a
zero-length vector).  The angle value itself is unused: the stem
resampling it was meant to gate is commented out (lines 645-647). -/
def childrenAngleCheck (s : Section) : PRes Section :=
  if s.children.length = 2 then
    match s.children[0]? with
    | none => PRes.exn PyExn.indexError s []
    | some c0 =>
      match pyGet c0.samples 1, pyGet c0.samples 0 with
      | some c01, some c00 =>
        let vector_1 := (c01.point - c00.point).normalized
        match s.children[1]? with
        | none => PRes.exn PyExn.indexError s []
        | some c1 =>
          match pyGet c1.samples 1, pyGet c1.samples 0 with
          | some c11, some c10 =>
            let vector_2 := (c11.point - c10.point).normalized
            if vector_1.length = 0 ∨ vector_2.length = 0 then
              PRes.exn PyExn.valueError s []
            else PRes.ok s []
          | _, _ => PRes.exn PyExn.indexError s []
      | _, _ => PRes.exn PyExn.indexError s []
  else PRes.ok s []

/-- `resample_section_components` (skeleton_resampling_ops.py lines
590-663): skip axons, short sections and sections shorter than the
minimal viable length; otherwise resample the front when the section has
a parent and the rear when it has children; primary sections additionally
compute (but do not use) the inter-children angle.  The stem resampling
and the final duplicate removal are commented out in the source. -/
def resample_section_components (s : Section) : PRes Section :=
  if s.get_type_string = "AXON" then PRes.ok s []
  else if s.is_short then PRes.ok s []
  else
    let section_length := compute_section_length s
    match pyGet s.samples 0 with
    | none => PRes.exn PyExn.indexError s []
    | some first =>
      match pyGet s.samples (-1) with
      | none => PRes.exn PyExn.indexError s []
      | some last =>
        let minimal_section_length := (first.radius + last.radius) * 2
        if section_length < minimal_section_length then
          PRes.ok s [Diag.cannotResample s.id]
        else if s.is_primary then
          (((if s.has_parent then resample_section_front s else PRes.ok s []).andThen
              fun t => if t.has_children then resample_section_rear t else PRes.ok t []).andThen
            childrenAngleCheck)
        else
          ((if s.has_parent then resample_section_front s else PRes.ok s []).andThen
            fun t => if t.has_children then resample_section_rear t else PRes.ok t [])

/-- Following the spec's words (§4.8), for the refinement proof of
`resample_section_components`: on a section that passes the skip gates,
the front is resampled exactly when the section has a parent and the rear
exactly when it has children — both conditions read off the original
section — and the stem is never resampled. -/
def componentsStaged (s : Section) : PRes Section :=
  (if s.has_parent then resample_section_front s else PRes.ok s []).andThen
    fun t => if s.has_children then resample_section_rear t else PRes.ok t []


/-! ### Concrete sections used by the claim theorems -/

/-- A section record with given samples and no tree linkage; basal
dendrite type (3), not primary, not short. -/
def mkSec (samples : List Sample) : Section :=
  { id := 7, parent_id := none, children_ids := [], samples := samples,
    type := 3, hasParentRef := false, children := [], is_primary := false,
    is_short := false }

/-- An axis-aligned sample at x-coordinate `a` with radius `r` and id `i`. -/
def axSample (a r : ℝ) (i : ℤ) : Sample := ⟨⟨a, 0, 0⟩, r, i⟩

/-- The duplicate-removal scenario of the spec (§8): samples at positions
0, 0.5, 0.6 and 5. -/
def c6sec : Section :=
  mkSec [axSample 0 1 0, axSample (1 / 2) 1 1, axSample (3 / 5) 1 2, axSample 5 1 3]

/-- A section whose final adjacent pair is closer than the threshold:
samples at positions 0, 5 and 5.1. -/
def c7sec : Section := mkSec [axSample 0 1 0, axSample 5 1 1, axSample (51 / 10) 1 2]

/-- Following the spec's words (§4.6, §8), for the refinement proof of
`remove_samples_within_extent`: the samples kept are exactly those that
are not strictly inside the sphere, plus the first sample when
`ignore_first_sample` is set; each sample is tested independently against
a snapshot of the original sequence. -/
def extentKeptSpec (c : Vec3) (r : ℝ) (ign : Bool) : ℕ → List Sample → List Sample
  | _, [] => []
  | i, x :: rest =>
    if (i = 0 ∧ ign = true) ∨ ¬ is_point_inside_sphere c r x.point then
      x :: extentKeptSpec c r ign (i + 1) rest
    else extentKeptSpec c r ign (i + 1) rest

/-- Following the spec's words (§4.6): the number of samples strictly
inside the sphere (not counting the first sample when
`ignore_first_sample` is set). -/
def extentRemovedCountSpec (c : Vec3) (r : ℝ) (ign : Bool) : ℕ → List Sample → ℕ
  | _, [] => 0
  | i, x :: rest =>
    (if ¬ (i = 0 ∧ ign = true) ∧ is_point_inside_sphere c r x.point then 1 else 0) +
      extentRemovedCountSpec c r ign (i + 1) rest

/-- A three-sample section used to instantiate the extent-removal claim:
samples at x-positions 0, 1 and 5. -/
def c5sec : Section := mkSec [axSample 0 1 0, axSample 1 1 1, axSample 5 1 2]

/-- A two-sample section used as a witness input. -/
def cW2 : Section := mkSec [axSample 0 1 0, axSample 3 1 1]

/-- A one-sample section. -/
def c1sec : Section := mkSec [axSample 0 1 0]

/-- A two-sample section with inter-sample distance 4. -/
def c2sec : Section := mkSec [axSample 0 1 0, axSample 4 1 1]

/-- The result of `resample_sections` on `c2sec` with resampling
distance 3: one auxiliary midpoint sample inserted, ids renumbered. -/
def c2out : Section := mkSec [axSample 0 1 0, axSample 2 1 1, axSample 4 1 2]

/-- A two-sample section whose second sample is well inside the front
clearance radius. -/
def c4sec : Section := mkSec [axSample 0 1 0, axSample (1 / 10) 1 1]

/-- The result of `resample_section_front` on `c4sec`: the auxiliary
sample sits at distance √2 but the old close sample survives behind it. -/
def c4out : Section :=
  mkSec [axSample 0 1 0, ⟨⟨Real.sqrt 2, 0, 0⟩, 1, 1⟩, axSample (1 / 10) 1 2]

/-- A three-sample section for the front-resampling witness. -/
def c4wsec : Section := mkSec [axSample 0 1 0, axSample (1 / 2) 1 1, axSample 3 1 2]

/-- A two-sample basal-dendrite section of length 3, shorter than its
minimal viable length (1 + 1) · 2 = 4. -/
def c3wsec : Section := mkSec [axSample 0 1 0, axSample 3 1 1]

/-- Termination measure for one gap of the scan loop of
`resample_sections`: the number of ceiling-steps of size
`resampling_distance · EPSILON` needed to bring the gap to the resampling
distance.  A far-gap insertion shortens its gap by exactly
`resampling_distance · EPSILON`, decreasing this measure by one. -/
def gapSteps (resampling_distance d : ℝ) : ℕ :=
  (Int.ceil ((d - resampling_distance) / (resampling_distance * Math.EPSILON))).toNat

/-- The total termination measure of the scan loop: the sum of `gapSteps`
over all adjacent gaps of the sample list. -/
def gapPhi (resampling_distance : ℝ) : List Sample → ℕ
  | [] => 0
  | [_] => 0
  | a :: b :: rest =>
      gapSteps resampling_distance ((b.point - a.point).length) +
        gapPhi resampling_distance (b :: rest)

/-- A primary basal-dendrite section of length 10 with two children, the
first of which has no samples at all. -/
def c10sec : Section :=
  { id := 7, parent_id := none, children_ids := [],
    samples := [axSample 0 1 0, axSample 10 1 1], type := 3,
    hasParentRef := false,
    children := [Child.mk [], Child.mk [axSample 0 1 0, axSample 1 1 1]],
    is_primary := true, is_short := false }

end

-- THEOREMS

section

/-! ### Basic facts about the vector model -/

@[simp] lemma Vec3.sub_mk (a b c d e f : ℝ) :
    (Vec3.mk a b c) - (Vec3.mk d e f) = Vec3.mk (a - d) (b - e) (c - f) := rfl

@[simp] lemma Vec3.add_mk (a b c d e f : ℝ) :
    (Vec3.mk a b c) + (Vec3.mk d e f) = Vec3.mk (a + d) (b + e) (c + f) := rfl

@[simp] lemma Vec3.smul_mk (r a b c : ℝ) :
    r • (Vec3.mk a b c) = Vec3.mk (r * a) (r * b) (r * c) := rfl

lemma Vec3.length_nonneg (v : Vec3) : 0 ≤ v.length := Real.sqrt_nonneg _

@[simp] lemma Vec3.length_axis (a : ℝ) : (Vec3.mk a 0 0).length = |a| := by
  simp only [Vec3.length]
  rw [show a ^ 2 + (0:ℝ) ^ 2 + (0:ℝ) ^ 2 = a ^ 2 by ring, Real.sqrt_sq_eq_abs]

lemma Vec3.smul_def (c : ℝ) (v : Vec3) : c • v = Vec3.mk (c * v.x) (c * v.y) (c * v.z) := rfl

lemma Vec3.length_smul (c : ℝ) (v : Vec3) : (c • v).length = |c| * v.length := by
  simp only [Vec3.smul_def, Vec3.length]
  rw [show (c * v.x) ^ 2 + (c * v.y) ^ 2 + (c * v.z) ^ 2
        = c ^ 2 * (v.x ^ 2 + v.y ^ 2 + v.z ^ 2) by ring,
    Real.sqrt_mul (sq_nonneg c), Real.sqrt_sq_eq_abs]

lemma Vec3.normalized_length (v : Vec3) (h : v.length ≠ 0) : v.normalized.length = 1 := by
  rw [Vec3.normalized, if_neg h, Vec3.length_smul,
    abs_of_nonneg (one_div_nonneg.mpr v.length_nonneg), one_div, inv_mul_cancel₀ h]

/-- The duplicate-removal scan on the §8 scenario (first recursion level):
the pair (0, 0.5) at distance 0.5 < 1 is found first. -/
lemma dupGo_c6 : dupGo 1 c6sec.samples = PRes.ok [axSample 0 1 0, axSample 5 1 3] [] := by
  have e1 : dupGo 1 c6sec.samples
      = dupGo 1 [axSample 0 1 0, axSample (3 / 5) 1 2, axSample 5 1 3] := by
    have h1 : dupScan 1 c6sec.samples 0 = DupRes.removeAt 1 (by norm_num [c6sec, mkSec]) := by
      rw [dupScan.eq_def]
      norm_num [c6sec, mkSec, axSample, abs_of_nonneg]
    rw [dupGo.eq_def, h1]
    norm_num [c6sec, mkSec, List.eraseIdx]
  have e2 : dupGo 1 [axSample 0 1 0, axSample (3 / 5) 1 2, axSample 5 1 3]
      = dupGo 1 [axSample 0 1 0, axSample 5 1 3] := by
    have h2 : dupScan 1 [axSample 0 1 0, axSample (3 / 5) 1 2, axSample 5 1 3] 0
        = DupRes.removeAt 1 (by norm_num) := by
      rw [dupScan.eq_def]
      norm_num [axSample, abs_of_nonneg]
    rw [dupGo.eq_def, h2]
    norm_num [List.eraseIdx]
  have e3 : dupGo 1 [axSample 0 1 0, axSample 5 1 3]
      = PRes.ok [axSample 0 1 0, axSample 5 1 3] [] := by
    have h3 : dupScan 1 [axSample 0 1 0, axSample 5 1 3] 0 = DupRes.finished := by
      rw [dupScan.eq_def]
      norm_num
    rw [dupGo.eq_def, h3]
  rw [e1, e2, e3]

/-- C6 counterexample helper: the full run of `remove_duplicate_samples`
on the §8 scenario. -/
lemma remove_dup_c6 :
    remove_duplicate_samples c6sec 1
      = PRes.ok { c6sec with samples := [axSample 0 1 0, axSample 5 1 3] } [] := by
  rw [remove_duplicate_samples, dupGo_c6]


/-! ### Analysis of `remove_duplicate_samples` -/

/-- A finished duplicate scan certifies that every adjacent pair from the
scan index up to (but excluding) the final pair is at least the threshold
apart: the scan breaks at index `len - 2` and never tests the final pair. -/
lemma dupScan_finished_pairs (threshold : ℝ) (samples : List Sample) :
    ∀ i, dupScan threshold samples i = DupRes.finished →
      ∀ k a b, i ≤ k → k + 2 < samples.length → samples[k]? = some a →
        samples[k + 1]? = some b → threshold ≤ (b.point - a.point).length := by
  intro i
  induction i using dupScan.induct threshold samples with
  | case1 i hle =>
    intro _ k a b hik hk _ _
    omega
  | case2 i hle heq =>
    intro _ k a b hik hk _ _
    exfalso
    omega
  | case3 i hle heq h a b hcond =>
    intro hfin
    exfalso
    rw [dupScan.eq_def] at hfin
    simp only [if_neg hle, if_neg heq, dif_pos h] at hfin
    rw [if_pos hcond] at hfin
    cases hfin
  | case4 i hle heq h a b hcond ih =>
    intro hfin k x y hik hk hx hy
    rcases Nat.eq_or_lt_of_le hik with hik' | hik'
    · subst hik'
      have hget_x : samples.get ⟨i, Nat.lt_of_succ_lt h⟩ = x := by
        have hh := List.getElem?_eq_some_iff.mp hx
        simpa [List.get_eq_getElem] using hh.2
      have hget_y : samples.get ⟨i + 1, h⟩ = y := by
        have hh := List.getElem?_eq_some_iff.mp hy
        simpa [List.get_eq_getElem] using hh.2
      rw [← hget_x, ← hget_y]
      exact not_lt.mp hcond
    · rw [dupScan.eq_def] at hfin
      simp only [if_neg hle, if_neg heq, dif_pos h] at hfin
      rw [if_neg hcond] at hfin
      exact ih hfin k x y hik' hk hx hy
  | case5 i hle heq h =>
    intro _ k a b hik hk _ _
    exfalso
    omega

/-- An out-of-bounds duplicate scan only happens when the scan index is the
last valid index, i.e. on the one-sample section at index 0. -/
lemma dupScan_oob_length (threshold : ℝ) (samples : List Sample) :
    ∀ i, dupScan threshold samples i = DupRes.oob → samples.length = i + 1 := by
  intro i
  induction i using dupScan.induct threshold samples with
  | case1 i hle =>
    intro hoob
    rw [dupScan.eq_def] at hoob
    rw [if_pos hle] at hoob
    cases hoob
  | case2 i hle heq =>
    intro hoob
    rw [dupScan.eq_def] at hoob
    rw [if_neg hle, if_pos heq] at hoob
    cases hoob
  | case3 i hle heq h a b hcond =>
    intro hoob
    rw [dupScan.eq_def] at hoob
    simp only [if_neg hle, if_neg heq, dif_pos h] at hoob
    rw [if_pos hcond] at hoob
    cases hoob
  | case4 i hle heq h a b hcond ih =>
    intro hoob
    rw [dupScan.eq_def] at hoob
    simp only [if_neg hle, if_neg heq, dif_pos h] at hoob
    rw [if_neg hcond] at hoob
    have hl := ih hoob
    exfalso
    apply heq
    omega
  | case5 i hle heq h =>
    intro _
    omega

/-- Characterisation of the terminal states of `remove_duplicate_samples`'s
recursion: a normal return leaves no adjacent pair below the threshold
except possibly the final pair, and the `IndexError` outcome only arises
from a one-sample list. -/
lemma dupGo_spec (threshold : ℝ) (samples : List Sample) :
    (∀ t l, dupGo threshold samples = PRes.ok t l →
      ∀ k a b, k + 2 < t.length → t[k]? = some a → t[k + 1]? = some b →
        threshold ≤ (b.point - a.point).length) ∧
    (∀ k t l, dupGo threshold samples = PRes.exn k t l → t.length < 2) := by
  induction samples using dupGo.induct threshold with
  | case1 samples hfin =>
    constructor
    · intro t l hok k a b hk ha hb
      rw [dupGo.eq_def, hfin] at hok
      cases hok
      exact dupScan_finished_pairs threshold samples 0 hfin k a b (Nat.zero_le k) hk ha hb
    · intro k t l hexn
      rw [dupGo.eq_def, hfin] at hexn
      cases hexn
  | case2 samples hoob =>
    constructor
    · intro t l hok
      rw [dupGo.eq_def, hoob] at hok
      cases hok
    · intro k t l hexn
      rw [dupGo.eq_def, hoob] at hexn
      cases hexn
      have := dupScan_oob_length threshold samples 0 hoob
      omega
  | case3 samples j hj hrem ih =>
    constructor
    · intro t l hok
      rw [dupGo.eq_def, hrem] at hok
      exact ih.1 t l hok
    · intro k t l hexn
      rw [dupGo.eq_def, hrem] at hexn
      exact ih.2 k t l hexn

/-- Helper: the full run of `remove_duplicate_samples` on `c7sec` leaves
the section unchanged (the scan breaks before testing the final pair). -/
lemma remove_dup_c7 : remove_duplicate_samples c7sec 1 = PRes.ok c7sec [] := by
  have h3 : dupScan 1 c7sec.samples 0 = dupScan 1 c7sec.samples 1 := by
    rw [dupScan.eq_def]
    norm_num [c7sec, mkSec, axSample, abs_of_nonneg]
  have h4 : dupScan 1 c7sec.samples 1 = DupRes.finished := by
    rw [dupScan.eq_def]
    norm_num [c7sec, mkSec]
  rw [remove_duplicate_samples, dupGo.eq_def, h3, h4]

/-- C6.  The claim (spec §8 scenario): threshold 1 on samples at 0, 0.5,
0.6, 5 collapses 0.5 and 0.6 into one retained sample, leaving 3 samples.
In fact the scan first finds the pair (0, 0.5), distance 0.5 < 1, and
removes the 0.5 sample; then the pair (0, 0.6) and removes 0.6; the final
sequence is [0, 5]: 2 samples, not 3. -/
theorem claim6_counterexample :
    remove_duplicate_samples c6sec 1
        = PRes.ok { c6sec with samples := [axSample 0 1 0, axSample 5 1 3] } [] ∧
      ([axSample 0 1 0, axSample 5 1 3].length ≠ 3) :=
  ⟨remove_dup_c6, by simp⟩

/-- C6 (amended): on samples at positions 0, 0.5, 0.6, 5 with threshold 1,
the scan removes the samples at 0.5 and at 0.6 (each forms a pair with the
sample at 0 at distance below the threshold after the preceding removal),
and the final sequence is [0, 5]: exactly 2 samples. -/
theorem claim6_amended :
    ((axSample (1 / 2) 1 1).point - (axSample 0 1 0).point).length < 1 ∧
    ((axSample (3 / 5) 1 2).point - (axSample 0 1 0).point).length < 1 ∧
    remove_duplicate_samples c6sec 1
        = PRes.ok { c6sec with samples := [axSample 0 1 0, axSample 5 1 3] } [] ∧
    [axSample 0 1 0, axSample 5 1 3].length = 2 := by
  refine ⟨?_, ?_, remove_dup_c6, by simp⟩
  · norm_num [axSample, abs_of_nonneg]
  · norm_num [axSample, abs_of_nonneg]

/-- C7.  The claim: after `remove_duplicate_samples` terminates, either
fewer than 2 samples remain or no adjacent pair — including the last
one — is closer than the threshold.  Counterexample: on samples at 0, 5,
5.1 with threshold 1 the function returns without removing anything, yet
the last adjacent pair is at distance 0.1 < 1 (the scan breaks at index
`len - 2` and never tests the final pair). -/
theorem claim7_counterexample :
    remove_duplicate_samples c7sec 1 = PRes.ok c7sec [] ∧
      2 ≤ c7sec.samples.length ∧
      ((axSample (51 / 10) 1 2).point - (axSample 5 1 1).point).length < 1 ∧
      c7sec.samples[1]? = some (axSample 5 1 1) ∧
      c7sec.samples[2]? = some (axSample (51 / 10) 1 2) := by
  refine ⟨remove_dup_c7, by norm_num [c7sec, mkSec], ?_, ?_, ?_⟩
  · norm_num [axSample, abs_of_nonneg]
  · simp [c7sec, mkSec]
  · simp [c7sec, mkSec]

/-- C7 (amended): when `remove_duplicate_samples` terminates normally,
every adjacent pair except possibly the final one is at distance at least
the threshold; when it terminates by the `IndexError`, fewer than 2
samples remain (and remain unchanged). -/
theorem claim7_amended (s : Section) (threshold : ℝ) :
    (∀ t l, remove_duplicate_samples s threshold = PRes.ok t l →
      ∀ k a b, k + 2 < t.samples.length → t.samples[k]? = some a →
        t.samples[k + 1]? = some b → threshold ≤ (b.point - a.point).length) ∧
    (∀ k t l, remove_duplicate_samples s threshold = PRes.exn k t l →
      t.samples.length < 2) := by
  constructor
  · intro t l hok k a b hk ha hb
    rw [remove_duplicate_samples] at hok
    cases hgo : dupGo threshold s.samples with
    | ok t' l' =>
      rw [hgo] at hok
      injection hok with ht hl
      subst ht
      exact (dupGo_spec threshold s.samples).1 t' l' hgo k a b hk ha hb
    | exn k' t' l' =>
      rw [hgo] at hok
      cases hok
    | spin =>
      rw [hgo] at hok
      cases hok
  · intro k t l hexn
    rw [remove_duplicate_samples] at hexn
    cases hgo : dupGo threshold s.samples with
    | ok t' l' =>
      rw [hgo] at hexn
      cases hexn
    | exn k' t' l' =>
      rw [hgo] at hexn
      injection hexn with hk1 ht hl
      subst ht
      exact (dupGo_spec threshold s.samples).2 k' t' l' hgo
    | spin =>
      rw [hgo] at hexn
      cases hexn

/-- C7 witness: instantiating the amended claim on the concrete section
`c7sec` with threshold 1: the checked pair (0, 5) is indeed at distance
at least 1. -/
theorem claim7_witness :
    (1 : ℝ) ≤ ((axSample 5 1 1).point - (axSample 0 1 0).point).length :=
  (claim7_amended c7sec 1).1 c7sec [] remove_dup_c7 0 (axSample 0 1 0) (axSample 5 1 1)
    (by norm_num [c7sec, mkSec]) (by simp [c7sec, mkSec]) (by simp [c7sec, mkSec])


/-! ### Analysis of `remove_samples_within_extent` -/

lemma eraseIdx_append_cons (K : List Sample) (x : Sample) (t : List Sample) :
    (K ++ x :: t).eraseIdx K.length = K ++ t := by
  induction K with
  | nil => rfl
  | cons y K ih => simpa [List.eraseIdx] using ih

/-- The removal loop refines the spec-level filter: starting from snapshot
suffix `snap` at index `i`, with `K` the samples kept so far and `rm` the
number removed so far (so that `i = rm + K.length`), the loop returns the
kept samples and the total removed count. -/
lemma extentLoop_spec (c : Vec3) (r : ℝ) (ign : Bool) :
    ∀ (snap : List Sample) (i rm : ℕ) (K : List Sample), i = rm + K.length →
      extentLoop c r ign i rm (K ++ snap) snap
        = (K ++ extentKeptSpec c r ign i snap, rm + extentRemovedCountSpec c r ign i snap) := by
  intro snap
  induction snap with
  | nil =>
    intro i rm K hi
    simp [extentLoop, extentKeptSpec, extentRemovedCountSpec]
  | cons x snap ih =>
    intro i rm K hi
    rw [extentLoop]
    by_cases h0 : i = 0 ∧ ign = true
    · rw [if_pos h0]
      have := ih (i + 1) rm (K ++ [x]) (by simp; omega)
      simp only [List.append_assoc, List.cons_append, List.nil_append] at this
      rw [this]
      rw [extentKeptSpec, extentRemovedCountSpec, if_pos (Or.inl h0),
        if_neg (by tauto)]
      simp
    · rw [if_neg h0]
      by_cases hin : is_point_inside_sphere c r x.point
      · rw [if_pos hin]
        have herase : (K ++ x :: snap).eraseIdx (i - rm) = K ++ snap := by
          rw [show i - rm = K.length by omega]
          exact eraseIdx_append_cons K x snap
        rw [herase]
        have := ih (i + 1) (rm + 1) K (by omega)
        rw [this]
        rw [extentKeptSpec, extentRemovedCountSpec, if_neg (by tauto),
          if_pos ⟨h0, hin⟩]
        congr 1
        omega
      · rw [if_neg hin]
        have := ih (i + 1) rm (K ++ [x]) (by simp; omega)
        simp only [List.append_assoc, List.cons_append, List.nil_append] at this
        rw [this]
        rw [extentKeptSpec, extentRemovedCountSpec, if_pos (Or.inr hin),
          if_neg (by tauto)]
        simp

/-- Kept plus removed is the whole snapshot. -/
lemma extentKeptSpec_length (c : Vec3) (r : ℝ) (ign : Bool) :
    ∀ (snap : List Sample) (i : ℕ),
      (extentKeptSpec c r ign i snap).length + extentRemovedCountSpec c r ign i snap
        = snap.length := by
  intro snap
  induction snap with
  | nil => intro i; simp [extentKeptSpec, extentRemovedCountSpec]
  | cons x snap ih =>
    intro i
    rw [extentKeptSpec, extentRemovedCountSpec]
    by_cases h : (i = 0 ∧ ign = true) ∨ ¬ is_point_inside_sphere c r x.point
    · rw [if_pos h, if_neg (by tauto)]
      have := ih (i + 1)
      simp only [List.length_cons]
      omega
    · rw [if_neg h, if_pos (by tauto)]
      have := ih (i + 1)
      simp only [List.length_cons]
      omega

/-- With `ignore_first_sample` set, the first sample is always kept. -/
lemma extentKeptSpec_head (c : Vec3) (r : ℝ) (x : Sample) (rest : List Sample) :
    extentKeptSpec c r true 0 (x :: rest) = x :: extentKeptSpec c r true 1 rest := by
  rw [extentKeptSpec, if_pos (Or.inl ⟨rfl, rfl⟩)]

/-- C5.  `remove_samples_within_extent`: with fewer than 3 samples it
returns 0 and does not mutate (an error diagnostic for fewer than 2, a
warning for exactly 2); with at least 3 samples it removes exactly the
samples strictly inside the sphere (each tested independently against a
snapshot of the original sequence, the first sample being exempt when
`ignore_first_sample` is set), and returns the number removed. -/
theorem claim5 (s : Section) (c : Vec3) (r : ℝ) (ign : Bool) :
    (s.samples.length < 2 →
      remove_samples_within_extent s c r ign = (s, 0, [Diag.errLessThanThree])) ∧
    (s.samples.length = 2 →
      remove_samples_within_extent s c r ign = (s, 0, [Diag.warnOnlyTwo])) ∧
    (3 ≤ s.samples.length →
      remove_samples_within_extent s c r ign
          = ({ s with samples := extentKeptSpec c r ign 0 s.samples },
             extentRemovedCountSpec c r ign 0 s.samples, []) ∧
        (extentKeptSpec c r ign 0 s.samples).length
            + extentRemovedCountSpec c r ign 0 s.samples = s.samples.length ∧
        (ign = true → ∀ x rest, s.samples = x :: rest →
          extentKeptSpec c r ign 0 s.samples = x :: extentKeptSpec c r ign 1 rest)) := by
  refine ⟨?_, ?_, ?_⟩
  · intro h
    rw [remove_samples_within_extent, if_pos h]
  · intro h
    rw [remove_samples_within_extent, if_neg (by omega), if_pos h]
  · intro h
    have hloop := extentLoop_spec c r ign s.samples 0 0 [] (by simp)
    simp only [List.nil_append, Nat.zero_add] at hloop
    refine ⟨?_, extentKeptSpec_length c r ign s.samples 0, ?_⟩
    · rw [remove_samples_within_extent, if_neg (by omega), if_neg (by omega), hloop]
    · intro hign x rest hs
      subst hign
      rw [hs]
      exact extentKeptSpec_head c r x rest

/-- C5 witness: on the section with samples at 0, 1, 5, a sphere of radius
2 about the origin and `ignore_first_sample = true`, exactly the sample at
1 is removed and the count is 1. -/
theorem claim5_witness :
    3 ≤ c5sec.samples.length ∧
    remove_samples_within_extent c5sec ⟨0, 0, 0⟩ 2 true
      = ({ c5sec with samples := [axSample 0 1 0, axSample 5 1 2] }, 1, []) := by
  refine ⟨by norm_num [c5sec, mkSec], ?_⟩
  have h := ((claim5 c5sec ⟨0, 0, 0⟩ 2 true).2.2 (by norm_num [c5sec, mkSec])).1
  rw [h]
  norm_num [extentKeptSpec, extentRemovedCountSpec, c5sec, mkSec, axSample,
    is_point_inside_sphere, abs_of_nonneg]


/-! ### Sample-count invariants of the resampling operations -/

lemma PRes.allStates_mono {α : Type} {P Q : α → Prop} {r : PRes α}
    (h : r.allStates P) (hpq : ∀ x, P x → Q x) : r.allStates Q := by
  cases r with
  | ok v l => exact hpq v h
  | exn k t l => exact hpq t h
  | spin => trivial

lemma renumberFrom_length : ∀ (i : ℤ) (l : List Sample), (renumberFrom i l).length = l.length
  | _, [] => rfl
  | i, x :: rest => by simp [renumberFrom, renumberFrom_length (i + 1) rest]

lemma resampleStep_brk_eq (rd : ℝ) (i : ℕ) (cur s' : List Sample)
    (h : resampleStep rd i cur = StepRes.brk s') : s' = cur := by
  rw [resampleStep] at h
  by_cases h1 : (i : ℤ) = (cur.length : ℤ) - 1
  · rw [if_pos h1] at h
    injection h with h
    exact h.symm
  · rw [if_neg h1] at h
    by_cases h2 : i + 1 < cur.length
    · rw [dif_pos h2] at h
      set a := cur.get ⟨i, Nat.lt_of_succ_lt h2⟩ with ha
      set b := cur.get ⟨i + 1, h2⟩ with hb
      by_cases h3 : (b.point - a.point).length > rd * 2
      · rw [if_pos h3] at h
        cases h
      · rw [if_neg h3] at h
        by_cases h4 : (b.point - a.point).length > rd ∧ (b.point - a.point).length < rd * 2
        · rw [if_pos h4] at h
          cases h
        · rw [if_neg h4] at h
          cases h
    · rw [dif_neg h2] at h
      cases h

lemma resampleStep_oob_eq (rd : ℝ) (i : ℕ) (cur s' : List Sample)
    (h : resampleStep rd i cur = StepRes.oob s') : s' = cur := by
  rw [resampleStep] at h
  by_cases h1 : (i : ℤ) = (cur.length : ℤ) - 1
  · rw [if_pos h1] at h
    cases h
  · rw [if_neg h1] at h
    by_cases h2 : i + 1 < cur.length
    · rw [dif_pos h2] at h
      set a := cur.get ⟨i, Nat.lt_of_succ_lt h2⟩ with ha
      set b := cur.get ⟨i + 1, h2⟩ with hb
      by_cases h3 : (b.point - a.point).length > rd * 2
      · rw [if_pos h3] at h
        cases h
      · rw [if_neg h3] at h
        by_cases h4 : (b.point - a.point).length > rd ∧ (b.point - a.point).length < rd * 2
        · rw [if_pos h4] at h
          cases h
        · rw [if_neg h4] at h
          cases h
    · rw [dif_neg h2] at h
      injection h with h
      exact h.symm

lemma resampleStep_inserted_len (rd : ℝ) (i : ℕ) (cur s' : List Sample)
    (h : resampleStep rd i cur = StepRes.inserted s') : cur.length ≤ s'.length := by
  rw [resampleStep] at h
  by_cases h1 : (i : ℤ) = (cur.length : ℤ) - 1
  · rw [if_pos h1] at h
    cases h
  · rw [if_neg h1] at h
    by_cases h2 : i + 1 < cur.length
    · rw [dif_pos h2] at h
      set a := cur.get ⟨i, Nat.lt_of_succ_lt h2⟩ with ha
      set b := cur.get ⟨i + 1, h2⟩ with hb
      by_cases h3 : (b.point - a.point).length > rd * 2
      · rw [if_pos h3] at h
        injection h with h
        rw [← h]
        exact List.length_le_length_insertIdx _ _ _
      · rw [if_neg h3] at h
        by_cases h4 : (b.point - a.point).length > rd ∧ (b.point - a.point).length < rd * 2
        · rw [if_pos h4] at h
          injection h with h
          rw [← h]
          exact List.length_le_length_insertIdx _ _ _
        · rw [if_neg h4] at h
          cases h
    · rw [dif_neg h2] at h
      cases h

/-- The scan loop of `resample_sections` only inserts: every observable
state has at least as many samples as the starting state. -/
lemma resampleLoop_len (rd : ℝ) :
    ∀ (fuel i : ℕ) (cur : List Sample),
      (resampleLoop rd fuel i cur).allStates fun t => cur.length ≤ t.length := by
  intro fuel
  induction fuel with
  | zero => intro i cur; rw [resampleLoop]; trivial
  | succ n ih =>
    intro i cur
    rw [resampleLoop]
    cases h : resampleStep rd i cur with
    | brk s' =>
      have := resampleStep_brk_eq rd i cur s' h
      subst this
      exact le_refl _
    | oob s' =>
      have := resampleStep_oob_eq rd i cur s' h
      subst this
      exact le_refl _
    | inserted s' =>
      have hlen := resampleStep_inserted_len rd i cur s' h
      exact PRes.allStates_mono (ih 0 s') fun x hx => le_trans hlen hx
    | moved j => exact ih j cur

/-- `dupScan` only reports removal indices strictly inside the list and
never at the very front. -/
lemma dupScan_removeAt_le (threshold : ℝ) (samples : List Sample) :
    ∀ i j h, dupScan threshold samples i = DupRes.removeAt j h →
      1 ≤ j ∧ j + 2 ≤ samples.length := by
  intro i
  induction i using dupScan.induct threshold samples with
  | case1 i hle =>
    intro j hj hrem
    rw [dupScan.eq_def, if_pos hle] at hrem
    cases hrem
  | case2 i hle heq =>
    intro j hj hrem
    rw [dupScan.eq_def, if_neg hle, if_pos heq] at hrem
    cases hrem
  | case3 i hle heq h a b hcond =>
    intro j hj hrem
    rw [dupScan.eq_def] at hrem
    simp only [if_neg hle, if_neg heq, dif_pos h] at hrem
    rw [if_pos hcond] at hrem
    injection hrem with hrem1
    omega
  | case4 i hle heq h a b hcond ih =>
    intro j hj hrem
    rw [dupScan.eq_def] at hrem
    simp only [if_neg hle, if_neg heq, dif_pos h] at hrem
    rw [if_neg hcond] at hrem
    exact ih j hj hrem
  | case5 i hle heq h =>
    intro j hj hrem
    rw [dupScan.eq_def] at hrem
    rw [if_neg hle, if_neg heq, dif_neg h] at hrem
    cases hrem

/-- `remove_duplicate_samples` never brings a section from two or more
samples below two. -/
lemma dupGo_len (threshold : ℝ) :
    ∀ samples : List Sample, 2 ≤ samples.length →
      (dupGo threshold samples).allStates fun t => 2 ≤ t.length := by
  intro samples
  induction samples using dupGo.induct threshold with
  | case1 samples hfin =>
    intro h2
    rw [dupGo.eq_def, hfin]
    exact h2
  | case2 samples hoob =>
    intro h2
    have := dupScan_oob_length threshold samples 0 hoob
    omega
  | case3 samples j hj hrem ih =>
    intro h2
    rw [dupGo.eq_def, hrem]
    obtain ⟨hle1, hle2⟩ := dupScan_removeAt_le threshold samples 0 j hj hrem
    have herase := List.length_eraseIdx_of_lt hj
    exact ih (by omega)

lemma stemStep_brk_eq (f r L : ℝ) (i : ℕ) (cur s' : List Sample)
    (h : stemStep f r L i cur = StemStep.brk s') : s' = cur := by
  rw [stemStep] at h
  set rd := if (gapList (cur.take (i + 1))).sum < 0.5 * L then f else r with hrd
  by_cases h1 : (i : ℤ) = (cur.length : ℤ) - 2
  · rw [if_pos h1] at h
    injection h with h
    exact h.symm
  · rw [if_neg h1] at h
    by_cases h2 : i + 1 < cur.length
    · rw [dif_pos h2] at h
      set a := cur.get ⟨i, Nat.lt_of_succ_lt h2⟩ with ha
      set b := cur.get ⟨i + 1, h2⟩ with hb
      by_cases h3 : rd = 0
      · rw [if_pos h3] at h
        cases h
      · rw [if_neg h3] at h
        by_cases h4 : (b.point - a.point).length / rd > 1001 / 1000
        · rw [if_pos h4] at h
          cases h
        · rw [if_neg h4] at h
          by_cases h5 : (b.point - a.point).length / rd < 999 / 1000
          · rw [if_pos h5] at h
            cases h
          · rw [if_neg h5] at h
            cases h
    · rw [dif_neg h2] at h
      cases h

lemma stemStep_oob_eq (f r L : ℝ) (i : ℕ) (cur s' : List Sample)
    (h : stemStep f r L i cur = StemStep.oob s') : s' = cur := by
  rw [stemStep] at h
  set rd := if (gapList (cur.take (i + 1))).sum < 0.5 * L then f else r with hrd
  by_cases h1 : (i : ℤ) = (cur.length : ℤ) - 2
  · rw [if_pos h1] at h
    cases h
  · rw [if_neg h1] at h
    by_cases h2 : i + 1 < cur.length
    · rw [dif_pos h2] at h
      set a := cur.get ⟨i, Nat.lt_of_succ_lt h2⟩ with ha
      set b := cur.get ⟨i + 1, h2⟩ with hb
      by_cases h3 : rd = 0
      · rw [if_pos h3] at h
        cases h
      · rw [if_neg h3] at h
        by_cases h4 : (b.point - a.point).length / rd > 1001 / 1000
        · rw [if_pos h4] at h
          cases h
        · rw [if_neg h4] at h
          by_cases h5 : (b.point - a.point).length / rd < 999 / 1000
          · rw [if_pos h5] at h
            cases h
          · rw [if_neg h5] at h
            cases h
    · rw [dif_neg h2] at h
      injection h with h
      exact h.symm

lemma stemStep_dz_eq (f r L : ℝ) (i : ℕ) (cur s' : List Sample)
    (h : stemStep f r L i cur = StemStep.dz s') : s' = cur := by
  rw [stemStep] at h
  set rd := if (gapList (cur.take (i + 1))).sum < 0.5 * L then f else r with hrd
  by_cases h1 : (i : ℤ) = (cur.length : ℤ) - 2
  · rw [if_pos h1] at h
    cases h
  · rw [if_neg h1] at h
    by_cases h2 : i + 1 < cur.length
    · rw [dif_pos h2] at h
      set a := cur.get ⟨i, Nat.lt_of_succ_lt h2⟩ with ha
      set b := cur.get ⟨i + 1, h2⟩ with hb
      by_cases h3 : rd = 0
      · rw [if_pos h3] at h
        injection h with h
        exact h.symm
      · rw [if_neg h3] at h
        by_cases h4 : (b.point - a.point).length / rd > 1001 / 1000
        · rw [if_pos h4] at h
          cases h
        · rw [if_neg h4] at h
          by_cases h5 : (b.point - a.point).length / rd < 999 / 1000
          · rw [if_pos h5] at h
            cases h
          · rw [if_neg h5] at h
            cases h
    · rw [dif_neg h2] at h
      cases h

lemma stemStep_inserted_len (f r L : ℝ) (i : ℕ) (cur s' : List Sample)
    (h : stemStep f r L i cur = StemStep.inserted s') : cur.length ≤ s'.length := by
  rw [stemStep] at h
  set rd := if (gapList (cur.take (i + 1))).sum < 0.5 * L then f else r with hrd
  by_cases h1 : (i : ℤ) = (cur.length : ℤ) - 2
  · rw [if_pos h1] at h
    cases h
  · rw [if_neg h1] at h
    by_cases h2 : i + 1 < cur.length
    · rw [dif_pos h2] at h
      set a := cur.get ⟨i, Nat.lt_of_succ_lt h2⟩ with ha
      set b := cur.get ⟨i + 1, h2⟩ with hb
      by_cases h3 : rd = 0
      · rw [if_pos h3] at h
        cases h
      · rw [if_neg h3] at h
        by_cases h4 : (b.point - a.point).length / rd > 1001 / 1000
        · rw [if_pos h4] at h
          injection h with h
          rw [← h]
          exact List.length_le_length_insertIdx _ _ _
        · rw [if_neg h4] at h
          by_cases h5 : (b.point - a.point).length / rd < 999 / 1000
          · rw [if_pos h5] at h
            cases h
          · rw [if_neg h5] at h
            cases h
    · rw [dif_neg h2] at h
      cases h

/-- A removal step of the stem loop happens strictly before the final two
samples. -/
lemma stemStep_removed_len (f r L : ℝ) (i : ℕ) (cur s' : List Sample)
    (h : stemStep f r L i cur = StemStep.removed s') :
    s'.length + 1 = cur.length ∧ i + 3 ≤ cur.length := by
  rw [stemStep] at h
  set rd := if (gapList (cur.take (i + 1))).sum < 0.5 * L then f else r with hrd
  by_cases h1 : (i : ℤ) = (cur.length : ℤ) - 2
  · rw [if_pos h1] at h
    cases h
  · rw [if_neg h1] at h
    by_cases h2 : i + 1 < cur.length
    · rw [dif_pos h2] at h
      set a := cur.get ⟨i, Nat.lt_of_succ_lt h2⟩ with ha
      set b := cur.get ⟨i + 1, h2⟩ with hb
      by_cases h3 : rd = 0
      · rw [if_pos h3] at h
        cases h
      · rw [if_neg h3] at h
        by_cases h4 : (b.point - a.point).length / rd > 1001 / 1000
        · rw [if_pos h4] at h
          cases h
        · rw [if_neg h4] at h
          by_cases h5 : (b.point - a.point).length / rd < 999 / 1000
          · rw [if_pos h5] at h
            injection h with h
            have hlt : i + 3 ≤ cur.length := by omega
            have herase := List.length_eraseIdx_of_lt (show i + 1 < cur.length by omega)
            rw [← h]
            exact ⟨by omega, hlt⟩
          · rw [if_neg h5] at h
            cases h
    · rw [dif_neg h2] at h
      cases h

lemma stemStep_moved_eq (f r L : ℝ) (i : ℕ) (cur : List Sample) (j : ℕ)
    (h : stemStep f r L i cur = StemStep.moved j) : j = i + 1 := by
  rw [stemStep] at h
  set rd := if (gapList (cur.take (i + 1))).sum < 0.5 * L then f else r with hrd
  by_cases h1 : (i : ℤ) = (cur.length : ℤ) - 2
  · rw [if_pos h1] at h
    cases h
  · rw [if_neg h1] at h
    by_cases h2 : i + 1 < cur.length
    · rw [dif_pos h2] at h
      set a := cur.get ⟨i, Nat.lt_of_succ_lt h2⟩ with ha
      set b := cur.get ⟨i + 1, h2⟩ with hb
      by_cases h3 : rd = 0
      · rw [if_pos h3] at h
        cases h
      · rw [if_neg h3] at h
        by_cases h4 : (b.point - a.point).length / rd > 1001 / 1000
        · rw [if_pos h4] at h
          cases h
        · rw [if_neg h4] at h
          by_cases h5 : (b.point - a.point).length / rd < 999 / 1000
          · rw [if_pos h5] at h
            cases h
          · rw [if_neg h5] at h
            injection h with h
            exact h.symm
    · rw [dif_neg h2] at h
      cases h

/-- The stem loop, started at index at least 1 on a section with at least
two samples, keeps at least two samples in every observable state. -/
lemma stemLoop_len (f r L : ℝ) :
    ∀ (fuel i : ℕ) (cur : List Sample), 1 ≤ i → 2 ≤ cur.length →
      (stemLoop f r L fuel i cur).allStates fun t => 2 ≤ t.length := by
  intro fuel
  induction fuel with
  | zero => intro i cur _ _; rw [stemLoop]; trivial
  | succ n ih =>
    intro i cur hi h2
    rw [stemLoop]
    cases h : stemStep f r L i cur with
    | brk s' =>
      have := stemStep_brk_eq f r L i cur s' h
      subst this
      exact h2
    | oob s' =>
      have := stemStep_oob_eq f r L i cur s' h
      subst this
      exact h2
    | dz s' =>
      have := stemStep_dz_eq f r L i cur s' h
      subst this
      exact h2
    | inserted s' =>
      have hlen := stemStep_inserted_len f r L i cur s' h
      exact ih 1 s' (le_refl 1) (by omega)
    | removed s' =>
      obtain ⟨hl1, hl2⟩ := stemStep_removed_len f r L i cur s' h
      exact ih 1 s' (le_refl 1) (by omega)
    | moved j =>
      have := stemStep_moved_eq f r L i cur j h
      subst this
      exact ih (i + 1) cur (by omega) h2

/-- `remove_samples_inside_soma` never brings a section from two or more
samples below two. -/
lemma somaGo_len :
    ∀ (n : ℕ) (samples : List Sample), samples.length ≤ n → 2 ≤ samples.length →
      2 ≤ (somaGo samples).1.length := by
  intro n
  induction n with
  | zero => intro samples hn h2; omega
  | succ n ih =>
    intro samples hn h2
    match samples, h2 with
    | [a, b], _ =>
      rw [somaGo]
      by_cases hflip : b.point.length < a.point.length
      · rw [if_pos hflip]
        simp
      · rw [if_neg hflip]
        simp
    | a :: x :: y :: tail, _ =>
      rw [somaGo]
      cases hscan : somaScan a.point.length (a :: x :: y :: tail) 1 with
      | none => simp
      | some j =>
        have hj := j.2
        have herase := List.length_eraseIdx_of_lt hj
        simp only [List.length_cons] at hj herase hn ⊢
        exact ih ((a :: x :: y :: tail).eraseIdx j.1) (by omega) (by omega)

/-- C8.  The claim: no resampling operation takes a section from ≥2
samples to fewer than 2.  Counterexample: `remove_samples_within_extent`
with a sphere covering every sample removes them all — here a 3-sample
section ends with 0 samples and the function returns 3 without refusing. -/
theorem claim8_counterexample :
    2 ≤ c5sec.samples.length ∧
    remove_samples_within_extent c5sec ⟨0, 0, 0⟩ 10 false
        = ({ c5sec with samples := [] }, 3, []) ∧
    ([] : List Sample).length < 2 := by
  refine ⟨by norm_num [c5sec, mkSec], ?_, by simp⟩
  have hloop := extentLoop_spec ⟨0, 0, 0⟩ 10 false c5sec.samples 0 0 [] (by simp)
  simp only [List.nil_append, Nat.zero_add] at hloop
  rw [remove_samples_within_extent, if_neg (by norm_num [c5sec, mkSec]),
    if_neg (by norm_num [c5sec, mkSec]), hloop]
  norm_num [extentKeptSpec, extentRemovedCountSpec, c5sec, mkSec, axSample,
    is_point_inside_sphere, abs_of_nonneg]

/-- C8 (amended): `resample_sections`, `add_sample_at_section_center`,
`remove_duplicate_samples`, `remove_samples_inside_soma` and
`resample_section_stem` never take a section from 2 or more samples to
fewer than 2 (in any terminating or raising outcome).
`remove_samples_within_extent` does not refuse: it can remove every
sample inside the extent, leaving fewer than 2 (see the counterexample),
and `resample_section_front`/`rear` inherit this on their error path. -/
theorem claim8_amended (s : Section) (h2 : 2 ≤ s.samples.length) :
    (∀ fuel rd, (resample_sections fuel s rd).allStates fun t => 2 ≤ t.samples.length) ∧
    2 ≤ (add_sample_at_section_center s).samples.length ∧
    (∀ threshold, (remove_duplicate_samples s threshold).allStates
      fun t => 2 ≤ t.samples.length) ∧
    2 ≤ (remove_samples_inside_soma s).1.samples.length ∧
    (∀ fuel, (resample_section_stem fuel s).allStates fun t => 2 ≤ t.samples.length) := by
  refine ⟨?_, ?_, ?_, ?_, ?_⟩
  · intro fuel rd
    rcases hs : s.samples with _ | ⟨a, _ | ⟨b, rest⟩⟩
    · rw [hs] at h2; simp at h2
    · rw [hs] at h2; simp at h2
    · rw [resample_sections, hs]
      have hloop := resampleLoop_len rd fuel 0 (a :: b :: rest)
      cases hl : resampleLoop rd fuel 0 (a :: b :: rest) with
      | ok t l =>
        rw [hl] at hloop
        simp only [PRes.allStates, Section.reorder_samples, renumberFrom_length]
        simp only [PRes.allStates, List.length_cons] at hloop
        omega
      | exn k t l =>
        rw [hl] at hloop
        simp only [PRes.allStates]
        simp only [PRes.allStates, List.length_cons] at hloop
        omega
      | spin => trivial
  · rw [add_sample_at_section_center]
    rcases hs : s.samples with _ | ⟨a, _ | ⟨b, _ | ⟨c, rest⟩⟩⟩
    · rw [hs] at h2; simp at h2
    · rw [hs] at h2; simp at h2
    · simp [Section.reorder_samples, renumberFrom_length, hs, List.insertIdx]
    · rw [hs] at h2
      simp only
      rw [hs]
      exact h2
  · intro threshold
    rw [remove_duplicate_samples]
    have hgo := dupGo_len threshold s.samples h2
    cases hl : dupGo threshold s.samples with
    | ok t l =>
      rw [hl] at hgo
      exact hgo
    | exn k t l =>
      rw [hl] at hgo
      exact hgo
    | spin => trivial
  · rw [remove_samples_inside_soma]
    by_cases hpar : s.has_parent
    · rw [if_pos hpar]
      exact h2
    · rw [if_neg hpar]
      exact somaGo_len s.samples.length s.samples (le_refl _) h2
  · intro fuel
    rw [resample_section_stem]
    cases h0 : pyGet s.samples 0 with
    | none =>
      simp only [h0, PRes.allStates]
      exact h2
    | some first =>
      cases h1 : pyGet s.samples (-1) with
      | none =>
        simp only [h0, h1, PRes.allStates]
        exact h2
      | some last =>
        have hloop := stemLoop_len (first.radius * 2) (last.radius * 2)
          (compute_section_length s) fuel 1 s.samples (le_refl 1) h2
        cases hl : stemLoop (first.radius * 2) (last.radius * 2)
            (compute_section_length s) fuel 1 s.samples with
        | ok t l =>
          rw [hl] at hloop
          simp only [h0, h1, hl, PRes.allStates, Section.reorder_samples, renumberFrom_length]
          exact hloop
        | exn k t l =>
          rw [hl] at hloop
          simp only [h0, h1, hl, PRes.allStates]
          exact hloop
        | spin =>
          simp only [h0, h1, hl, PRes.allStates]


/-- C8 witness: the amended sample-count guarantee instantiated on a
concrete two-sample section. -/
theorem claim8_witness :
    2 ≤ cW2.samples.length ∧
    ((∀ fuel rd, (resample_sections fuel cW2 rd).allStates fun t => 2 ≤ t.samples.length) ∧
      2 ≤ (add_sample_at_section_center cW2).samples.length ∧
      (∀ threshold, (remove_duplicate_samples cW2 threshold).allStates
        fun t => 2 ≤ t.samples.length) ∧
      2 ≤ (remove_samples_inside_soma cW2).1.samples.length ∧
      (∀ fuel, (resample_section_stem fuel cW2).allStates fun t => 2 ≤ t.samples.length)) :=
  ⟨by norm_num [cW2, mkSec], claim8_amended cW2 (by norm_num [cW2, mkSec])⟩


/-! ### Degenerate sections (0 or 1 samples) -/

/-- `somaGo` leaves a 0- or 1-sample list unchanged (error diagnostics
only). -/
lemma somaGo_degenerate (samples : List Sample) (h : samples.length ≤ 1) :
    (somaGo samples).1 = samples := by
  rcases samples with _ | ⟨x, _ | ⟨y, rest⟩⟩
  · rw [somaGo]
  · rw [somaGo]
  · simp at h

/-- On a section with at most one sample, `resample_section_front` raises
an uncaught `IndexError`, leaving the section untouched. -/
lemma front_degenerate (s : Section) (h : s.samples.length ≤ 1) :
    ∃ l, resample_section_front s = PRes.exn PyExn.indexError s l := by
  rcases hs : s.samples with _ | ⟨x, _ | ⟨y, rest⟩⟩
  · refine ⟨[Diag.resamplingFront s.id], ?_⟩
    rw [resample_section_front]
    simp [pyGet, hs]
  · refine ⟨[Diag.resamplingFront s.id, Diag.errLessThanThree], ?_⟩
    rw [resample_section_front]
    simp [pyGet, hs, remove_samples_within_extent]
  · rw [hs] at h
    simp at h

/-- On a section with at most one sample, `resample_section_rear` raises
an uncaught `IndexError`; the escaping state carries the (trivially)
reversed samples, whose contents equal the original ones. -/
lemma rear_degenerate (s : Section) (h : s.samples.length ≤ 1) :
    ∃ t l, resample_section_rear s = PRes.exn PyExn.indexError t l ∧ t.samples = s.samples := by
  rcases hs : s.samples with _ | ⟨x, _ | ⟨y, rest⟩⟩
  · refine ⟨{ s with samples := s.samples.reverse }, [Diag.resamplingRear s.id], ?_, by simp [hs]⟩
    rw [resample_section_rear]
    simp [pyGet, hs]
  · refine ⟨{ s with samples := s.samples.reverse },
      [Diag.resamplingRear s.id, Diag.errLessThanThree], ?_, by simp [hs]⟩
    rw [resample_section_rear]
    simp [pyGet, hs, remove_samples_within_extent]
  · rw [hs] at h
    simp at h

/-- C1.  The claim: every resampling operation on a 0- or 1-sample section
leaves `samples` unchanged and completes without raising.  Counterexample:
`remove_duplicate_samples` on a 1-sample section raises an uncaught
`IndexError` (the scan's break test compares against `len - 2 = -1` and
then accesses `samples[1]`). -/
theorem claim1_counterexample :
    c1sec.samples.length = 1 ∧
    remove_duplicate_samples c1sec 1 = PRes.exn PyExn.indexError c1sec [] := by
  refine ⟨by norm_num [c1sec, mkSec], ?_⟩
  have h1 : dupScan 1 c1sec.samples 0 = DupRes.oob := by
    rw [dupScan.eq_def]
    norm_num [c1sec, mkSec]
  rw [remove_duplicate_samples, dupGo.eq_def, h1]

/-- C1 (amended): on a section with 0 or 1 samples every resampling
operation leaves the samples unchanged (also at the moment an exception
escapes), but only `resample_sections`, `add_sample_at_section_center`,
`remove_samples_inside_soma` and `remove_samples_within_extent` (and
`remove_duplicate_samples` on 0 samples) complete without an exception:
`remove_duplicate_samples` on 1 sample and
`resample_section_front`/`rear`/`stem` raise an uncaught `IndexError`,
and `resample_section_components` either returns or raises with the
samples unchanged. -/
theorem claim1_amended (s : Section) (h1 : s.samples.length ≤ 1) :
    (∀ fuel rd, ∃ l, resample_sections fuel s rd = PRes.ok s l) ∧
    add_sample_at_section_center s = s ∧
    (∀ threshold, s.samples.length = 0 →
      remove_duplicate_samples s threshold = PRes.ok s []) ∧
    (∀ threshold, s.samples.length = 1 →
      remove_duplicate_samples s threshold = PRes.exn PyExn.indexError s []) ∧
    (remove_samples_inside_soma s).1 = s ∧
    (∀ c r ign, remove_samples_within_extent s c r ign = (s, 0, [Diag.errLessThanThree])) ∧
    (∃ l, resample_section_front s = PRes.exn PyExn.indexError s l) ∧
    (∃ t l, resample_section_rear s = PRes.exn PyExn.indexError t l ∧ t.samples = s.samples) ∧
    (∀ fuel, resample_section_stem (fuel + 1) s = PRes.exn PyExn.indexError s []) ∧
    ((∃ t l, resample_section_components s = PRes.ok t l ∧ t.samples = s.samples) ∨
      (∃ k t l, resample_section_components s = PRes.exn k t l ∧ t.samples = s.samples)) := by
  refine ⟨?_, ?_, ?_, ?_, ?_, ?_, front_degenerate s h1, rear_degenerate s h1, ?_, ?_⟩
  · intro fuel rd
    rcases hs : s.samples with _ | ⟨x, _ | ⟨y, rest⟩⟩
    · exact ⟨[Diag.errNoSamples], by rw [resample_sections, hs]⟩
    · exact ⟨[Diag.errOneSample], by rw [resample_sections, hs]⟩
    · rw [hs] at h1; simp at h1
  · rcases hs : s.samples with _ | ⟨x, _ | ⟨y, rest⟩⟩
    · rw [add_sample_at_section_center, hs]
    · rw [add_sample_at_section_center, hs]
    · rw [hs] at h1; simp at h1
  · intro threshold h0
    rcases hs : s.samples with _ | ⟨x, t⟩
    · have hfin : dupScan threshold s.samples 0 = DupRes.finished := by
        rw [dupScan.eq_def, if_pos (by rw [hs]; simp)]
      have : dupGo threshold s.samples = PRes.ok s.samples [] := by
        rw [dupGo.eq_def, hfin]
      rw [remove_duplicate_samples, this]
    · rw [hs] at h0; simp at h0
  · intro threshold h0
    have hoob : dupScan threshold s.samples 0 = DupRes.oob := by
      rw [dupScan.eq_def, if_neg (by omega), if_neg (by omega), dif_neg (by omega)]
    have : dupGo threshold s.samples = PRes.exn PyExn.indexError s.samples [] := by
      rw [dupGo.eq_def, hoob]
    rw [remove_duplicate_samples, this]
  · rw [remove_samples_inside_soma]
    by_cases hpar : s.has_parent
    · rw [if_pos hpar]
    · rw [if_neg hpar]
      show ({ s with samples := (somaGo s.samples).1 } : Section) = s
      rw [somaGo_degenerate s.samples h1]
  · intro c r ign
    rw [remove_samples_within_extent, if_pos (by omega)]
  · intro fuel
    rcases hs : s.samples with _ | ⟨x, _ | ⟨y, rest⟩⟩
    · rw [resample_section_stem]
      simp [pyGet, hs]
    · rw [resample_section_stem]
      have hg0 : pyGet s.samples 0 = some x := by simp [pyGet, hs]
      have hg1 : pyGet s.samples (-1) = some x := by simp [pyGet, hs]
      simp only [hg0, hg1]
      have hstep : stemStep (x.radius * 2) (x.radius * 2) (compute_section_length s) 1 s.samples
          = StemStep.oob s.samples := by
        rw [stemStep, if_neg (by rw [hs]; simp), dif_neg (by rw [hs]; simp)]
      rw [stemLoop, hstep]
    · rw [hs] at h1; simp at h1
  · by_cases haxon : s.get_type_string = "AXON"
    · left
      exact ⟨s, [], by rw [resample_section_components, if_pos haxon], rfl⟩
    · by_cases hshort : s.is_short
      · left
        refine ⟨s, [], ?_, rfl⟩
        rw [resample_section_components, if_neg haxon, if_pos hshort]
      · rcases hs : s.samples with _ | ⟨x, _ | ⟨y, rest⟩⟩
        · right
          refine ⟨PyExn.indexError, s, [], ?_, hs⟩
          rw [resample_section_components, if_neg haxon, if_neg hshort]
          simp [pyGet, hs]
        · have hg0 : pyGet s.samples 0 = some x := by simp [pyGet, hs]
          have hg1 : pyGet s.samples (-1) = some x := by simp [pyGet, hs]
          by_cases hmin : compute_section_length s < (x.radius + x.radius) * 2
          · left
            refine ⟨s, [Diag.cannotResample s.id], ?_, hs⟩
            rw [resample_section_components, if_neg haxon, if_neg hshort]
            simp only [hg0, hg1]
            rw [if_pos hmin]
          · have hbody : ∀ u : Section, u.samples = s.samples →
                ((if u.has_parent then resample_section_front u else PRes.ok u []).andThen
                    fun t => if t.has_children then resample_section_rear t else PRes.ok t [])
                    = PRes.ok u [] ∧ u.has_children = false ∨
                  (∃ k t l,
                    ((if u.has_parent then resample_section_front u else PRes.ok u []).andThen
                      fun t => if t.has_children then resample_section_rear t else PRes.ok t [])
                      = PRes.exn k t l ∧ t.samples = s.samples) := by
              intro u hu
              by_cases hpar : u.has_parent
              · right
                obtain ⟨l, hfr⟩ := front_degenerate u (by rw [hu]; rw [hs]; simp)
                refine ⟨PyExn.indexError, u, l, ?_, by rw [hu]⟩
                rw [if_pos hpar, hfr]
                rfl
              · by_cases hch : u.has_children
                · right
                  obtain ⟨t, l, hre, hts⟩ := rear_degenerate u (by rw [hu, hs]; simp)
                  refine ⟨PyExn.indexError, t, l, ?_, by rw [hts, hu]⟩
                  rw [if_neg hpar]
                  show PRes.andThen (PRes.ok u []) _ = _
                  rw [PRes.andThen]
                  simp only [hch, if_true, hre, List.nil_append]
                · left
                  have hch' : u.has_children = false := by simpa using hch
                  refine ⟨?_, hch'⟩
                  rw [if_neg hpar]
                  show PRes.andThen (PRes.ok u []) _ = _
                  rw [PRes.andThen]
                  simp only [hch', Bool.false_eq_true, if_false]
                  rfl
            by_cases hprim : s.is_primary
            · rcases hbody s rfl with ⟨hok, hnc⟩ | ⟨k, t, l, hexn, hts⟩
              · left
                refine ⟨s, [], ?_, hs⟩
                rw [resample_section_components, if_neg haxon, if_neg hshort]
                simp only [hg0, hg1]
                rw [if_neg hmin, if_pos hprim, hok]
                have hch0 : ¬ s.children.length = 2 := by
                  simp only [Section.has_children, Bool.or_eq_false_iff,
                    decide_eq_false_iff_not, not_lt, Nat.le_zero] at hnc
                  omega
                rw [PRes.andThen]
                rw [childrenAngleCheck, if_neg hch0]
                rfl
              · right
                refine ⟨k, t, l, ?_, hts.trans hs⟩
                rw [resample_section_components, if_neg haxon, if_neg hshort]
                simp only [hg0, hg1]
                rw [if_neg hmin, if_pos hprim, hexn]
                rfl
            · rcases hbody s rfl with ⟨hok, hnc⟩ | ⟨k, t, l, hexn, hts⟩
              · left
                refine ⟨s, [], ?_, hs⟩
                rw [resample_section_components, if_neg haxon, if_neg hshort]
                simp only [hg0, hg1]
                rw [if_neg hmin, if_neg hprim, hok]
              · right
                refine ⟨k, t, l, ?_, hts.trans hs⟩
                rw [resample_section_components, if_neg haxon, if_neg hshort]
                simp only [hg0, hg1]
                rw [if_neg hmin, if_neg hprim, hexn]
        · rw [hs] at h1; simp at h1

/-- C1 witness: the amended degenerate-handling statement instantiated on
a concrete one-sample section. -/
theorem claim1_witness :
    c1sec.samples.length ≤ 1 ∧
    ((∀ fuel rd, ∃ l, resample_sections fuel c1sec rd = PRes.ok c1sec l) ∧
      add_sample_at_section_center c1sec = c1sec ∧
      (∀ threshold, c1sec.samples.length = 0 →
        remove_duplicate_samples c1sec threshold = PRes.ok c1sec []) ∧
      (∀ threshold, c1sec.samples.length = 1 →
        remove_duplicate_samples c1sec threshold = PRes.exn PyExn.indexError c1sec []) ∧
      (remove_samples_inside_soma c1sec).1 = c1sec ∧
      (∀ c r ign, remove_samples_within_extent c1sec c r ign
        = (c1sec, 0, [Diag.errLessThanThree])) ∧
      (∃ l, resample_section_front c1sec = PRes.exn PyExn.indexError c1sec l) ∧
      (∃ t l, resample_section_rear c1sec = PRes.exn PyExn.indexError t l ∧
        t.samples = c1sec.samples) ∧
      (∀ fuel, resample_section_stem (fuel + 1) c1sec = PRes.exn PyExn.indexError c1sec []) ∧
      ((∃ t l, resample_section_components c1sec = PRes.ok t l ∧ t.samples = c1sec.samples) ∨
        (∃ k t l, resample_section_components c1sec = PRes.exn k t l ∧
          t.samples = c1sec.samples))) :=
  ⟨by norm_num [c1sec, mkSec], claim1_amended c1sec (by norm_num [c1sec, mkSec])⟩


/-! ### `resample_sections` on two-sample sections -/

/-- A normal return of the scan loop carries no log entries. -/
lemma resampleLoop_log (rd : ℝ) :
    ∀ (fuel i : ℕ) (cur t : List Sample) (l : List Diag),
      resampleLoop rd fuel i cur = PRes.ok t l → l = [] := by
  intro fuel
  induction fuel with
  | zero =>
    intro i cur t l h
    rw [resampleLoop] at h
    cases h
  | succ n ih =>
    intro i cur t l h
    rw [resampleLoop] at h
    cases hstep : resampleStep rd i cur with
    | brk s' =>
      rw [hstep] at h
      cases h
      rfl
    | oob s' =>
      rw [hstep] at h
      cases h
    | inserted s' =>
      rw [hstep] at h
      exact ih 0 s' t l h
    | moved j =>
      rw [hstep] at h
      exact ih j cur t l h

/-- Unfolding of one fuelled iteration of the scan loop. -/
lemma resampleLoop_succ (rd : ℝ) (fuel i : ℕ) (samples : List Sample) :
    resampleLoop rd (fuel + 1) i samples
      = match resampleStep rd i samples with
        | StepRes.brk s' => PRes.ok s' []
        | StepRes.oob s' => PRes.exn PyExn.indexError s' []
        | StepRes.inserted s' => resampleLoop rd fuel 0 s'
        | StepRes.moved j => resampleLoop rd fuel j samples := rfl

/-- On a two-sample section whose gap is larger than the resampling
distance (and not exactly twice it), the first scan step inserts an
auxiliary sample. -/
lemma resampleStep_two_inserts (rd : ℝ) (a b : Sample)
    (h1 : rd < (b.point - a.point).length) (h2 : (b.point - a.point).length ≠ rd * 2) :
    ∃ x, resampleStep rd 0 [a, b] = StepRes.inserted ([a, b].insertIdx 1 x) := by
  rw [resampleStep]
  rw [if_neg (by simp), dif_pos (by simp : 0 + 1 < ([a, b] : List Sample).length)]
  simp only [List.get]
  by_cases hfar : (b.point - a.point).length > rd * 2
  · refine ⟨⟨a.point + (rd * Math.EPSILON) • (b.point - a.point).normalized,
      (b.radius + a.radius) * 0.5, -1⟩, ?_⟩
    rw [if_pos hfar]
  · refine ⟨⟨a.point + ((b.point - a.point).length * 0.5) • (b.point - a.point).normalized,
      (b.radius + a.radius) * 0.5, -1⟩, ?_⟩
    rw [if_neg hfar, if_pos ⟨h1, lt_of_le_of_ne (not_lt.mp hfar) h2⟩]

/-- C2.  The claim: on a 2-sample section `resample_sections` only emits
the warning and performs no mutation.  Counterexample: with samples at
distance 4 and resampling distance 3 the general scan still runs and
inserts a midpoint sample, yielding 3 samples. -/
theorem claim2_counterexample :
    c2sec.samples.length = 2 ∧
    resample_sections 4 c2sec 3 = PRes.ok c2out [Diag.warnTwoSamples 4 4] ∧
    c2out.samples.length = 3 := by
  refine ⟨by norm_num [c2sec, mkSec], ?_, by norm_num [c2out, mkSec]⟩
  have hstep0 : resampleStep 3 0 [axSample 0 1 0, axSample 4 1 1]
      = StepRes.inserted [axSample 0 1 0, axSample 2 1 (-1), axSample 4 1 1] := by
    rw [resampleStep]
    rw [if_neg (by norm_num), dif_pos (by norm_num)]
    simp only [List.get]
    norm_num [axSample, abs_of_nonneg, Vec3.normalized, List.insertIdx]
  have hstep1 : resampleStep 3 0 [axSample 0 1 0, axSample 2 1 (-1), axSample 4 1 1]
      = StepRes.moved 1 := by
    rw [resampleStep]
    rw [if_neg (by norm_num), dif_pos (by norm_num)]
    simp only [List.get]
    norm_num [axSample, abs_of_nonneg]
  have hstep2 : resampleStep 3 1 [axSample 0 1 0, axSample 2 1 (-1), axSample 4 1 1]
      = StepRes.moved 2 := by
    rw [resampleStep]
    rw [if_neg (by norm_num), dif_pos (by norm_num)]
    simp only [List.get]
    norm_num [axSample, abs_of_nonneg]
  have hstep3 : resampleStep 3 2 [axSample 0 1 0, axSample 2 1 (-1), axSample 4 1 1]
      = StepRes.brk [axSample 0 1 0, axSample 2 1 (-1), axSample 4 1 1] := by
    rw [resampleStep]
    rw [if_pos (by norm_num)]
  have l4 : resampleLoop 3 4 0 [axSample 0 1 0, axSample 4 1 1]
      = resampleLoop 3 3 0 [axSample 0 1 0, axSample 2 1 (-1), axSample 4 1 1] := by
    show resampleLoop 3 (3 + 1) 0 [axSample 0 1 0, axSample 4 1 1] = _
    rw [resampleLoop_succ, hstep0]
  have l3 : resampleLoop 3 3 0 [axSample 0 1 0, axSample 2 1 (-1), axSample 4 1 1]
      = resampleLoop 3 2 1 [axSample 0 1 0, axSample 2 1 (-1), axSample 4 1 1] := by
    show resampleLoop 3 (2 + 1) 0 [axSample 0 1 0, axSample 2 1 (-1), axSample 4 1 1] = _
    rw [resampleLoop_succ, hstep1]
  have l2 : resampleLoop 3 2 1 [axSample 0 1 0, axSample 2 1 (-1), axSample 4 1 1]
      = resampleLoop 3 1 2 [axSample 0 1 0, axSample 2 1 (-1), axSample 4 1 1] := by
    show resampleLoop 3 (1 + 1) 1 [axSample 0 1 0, axSample 2 1 (-1), axSample 4 1 1] = _
    rw [resampleLoop_succ, hstep2]
  have l1 : resampleLoop 3 1 2 [axSample 0 1 0, axSample 2 1 (-1), axSample 4 1 1]
      = PRes.ok [axSample 0 1 0, axSample 2 1 (-1), axSample 4 1 1] [] := by
    show resampleLoop 3 (0 + 1) 2 [axSample 0 1 0, axSample 2 1 (-1), axSample 4 1 1] = _
    rw [resampleLoop_succ, hstep3]
  have hloop := (l4.trans l3).trans (l2.trans l1)
  rw [resample_sections]
  show (match resampleLoop 3 4 0 [axSample 0 1 0, axSample 4 1 1] with
    | PRes.ok t l => PRes.ok (Section.reorder_samples { c2sec with samples := t })
        ((Diag.warnTwoSamples ((axSample 4 1 1).point - (axSample 0 1 0).point).length
            (((axSample 4 1 1).radius + (axSample 0 1 0).radius) * 2) ::
          (if ((axSample 4 1 1).point - (axSample 0 1 0).point).length
              < ((axSample 4 1 1).radius + (axSample 0 1 0).radius) * 2 then
            [Diag.badSection] else [])) ++ l)
    | PRes.exn k t l => PRes.exn k { c2sec with samples := t }
        ((Diag.warnTwoSamples ((axSample 4 1 1).point - (axSample 0 1 0).point).length
            (((axSample 4 1 1).radius + (axSample 0 1 0).radius) * 2) ::
          (if ((axSample 4 1 1).point - (axSample 0 1 0).point).length
              < ((axSample 4 1 1).radius + (axSample 0 1 0).radius) * 2 then
            [Diag.badSection] else [])) ++ l)
    | PRes.spin => PRes.spin)
    = PRes.ok c2out [Diag.warnTwoSamples 4 4]
  rw [hloop]
  norm_num [axSample, abs_of_nonneg, Section.reorder_samples, c2sec, c2out, mkSec, renumberFrom]

/-- C2 (amended): on a 2-sample section `resample_sections` emits the
two-sample warning (flagging a bad section exactly when the length is
below the combined diameters) and then still runs the general scan: when
the inter-sample distance is at most the resampling distance (or exactly
twice it) the only mutation is the id renumbering of `reorder_samples`;
when the distance exceeds the resampling distance (and is not exactly
twice it) the scan inserts at least one auxiliary sample, leaving 3 or
more samples. -/
theorem claim2_amended (s : Section) (a b : Sample) (rd : ℝ) (hs : s.samples = [a, b]) :
    (((b.point - a.point).length ≤ rd ∨ (b.point - a.point).length = rd * 2) →
      ∀ fuel, resample_sections (fuel + 2) s rd
        = PRes.ok (Section.reorder_samples s)
            (Diag.warnTwoSamples (b.point - a.point).length ((b.radius + a.radius) * 2) ::
              (if (b.point - a.point).length < (b.radius + a.radius) * 2 then
                [Diag.badSection] else []))) ∧
    ((rd < (b.point - a.point).length ∧ (b.point - a.point).length ≠ rd * 2) →
      ∀ fuel t l, resample_sections fuel s rd = PRes.ok t l →
        3 ≤ t.samples.length ∧
          l = Diag.warnTwoSamples (b.point - a.point).length ((b.radius + a.radius) * 2) ::
            (if (b.point - a.point).length < (b.radius + a.radius) * 2 then
              [Diag.badSection] else [])) := by
  constructor
  · intro hcond fuel
    have hnotfar : ¬ (b.point - a.point).length > rd * 2 := by
      rcases hcond with h | h
      · have h0 := Vec3.length_nonneg (b.point - a.point)
        intro hgt
        nlinarith
      · rw [h]
        exact lt_irrefl _
    have hnotmid : ¬ ((b.point - a.point).length > rd
        ∧ (b.point - a.point).length < rd * 2) := by
      rcases hcond with h | h
      · intro hc
        exact absurd h (not_le.mpr hc.1)
      · intro hc
        rw [h] at hc
        exact lt_irrefl _ hc.2
    have hstep0 : resampleStep rd 0 [a, b] = StepRes.moved 1 := by
      rw [resampleStep]
      rw [if_neg (by simp), dif_pos (by simp : 0 + 1 < ([a, b] : List Sample).length)]
      simp only [List.get]
      rw [if_neg hnotfar, if_neg hnotmid]
    have hstep1 : resampleStep rd 1 [a, b] = StepRes.brk [a, b] := by
      rw [resampleStep]
      rw [if_pos (by simp)]
    have hloop : resampleLoop rd (fuel + 2) 0 [a, b] = PRes.ok [a, b] [] := by
      show resampleLoop rd ((fuel + 1) + 1) 0 [a, b] = _
      rw [resampleLoop_succ, hstep0]
      show resampleLoop rd (fuel + 1) 1 [a, b] = _
      rw [resampleLoop_succ, hstep1]
    rw [resample_sections, hs]
    show (match resampleLoop rd (fuel + 2) 0 [a, b] with
      | PRes.ok t l => PRes.ok (Section.reorder_samples { s with samples := t })
          ((Diag.warnTwoSamples (b.point - a.point).length ((b.radius + a.radius) * 2) ::
            (if (b.point - a.point).length < (b.radius + a.radius) * 2 then
              [Diag.badSection] else [])) ++ l)
      | PRes.exn k t l => PRes.exn k { s with samples := t }
          ((Diag.warnTwoSamples (b.point - a.point).length ((b.radius + a.radius) * 2) ::
            (if (b.point - a.point).length < (b.radius + a.radius) * 2 then
              [Diag.badSection] else [])) ++ l)
      | PRes.spin => PRes.spin) = _
    rw [hloop, ← hs]
    show PRes.ok (Section.reorder_samples s)
        ((Diag.warnTwoSamples (b.point - a.point).length ((b.radius + a.radius) * 2) ::
          (if (b.point - a.point).length < (b.radius + a.radius) * 2 then
            [Diag.badSection] else [])) ++ []) = _
    rw [List.append_nil]
  · intro hcond fuel t l hok
    obtain ⟨x, hstep⟩ := resampleStep_two_inserts rd a b hcond.1 hcond.2
    match fuel with
    | 0 =>
      rw [resample_sections, hs] at hok
      rw [show resampleLoop rd 0 0 [a, b] = PRes.spin from rfl] at hok
      cases hok
    | fuel + 1 =>
      have heq : resample_sections (fuel + 1) s rd
          = (match resampleLoop rd fuel 0 ([a, b].insertIdx 1 x) with
            | PRes.ok t' l' => PRes.ok (Section.reorder_samples { s with samples := t' })
                ((Diag.warnTwoSamples (b.point - a.point).length
                    ((b.radius + a.radius) * 2) ::
                  (if (b.point - a.point).length < (b.radius + a.radius) * 2 then
                    [Diag.badSection] else [])) ++ l')
            | PRes.exn k t' l' => PRes.exn k { s with samples := t' }
                ((Diag.warnTwoSamples (b.point - a.point).length
                    ((b.radius + a.radius) * 2) ::
                  (if (b.point - a.point).length < (b.radius + a.radius) * 2 then
                    [Diag.badSection] else [])) ++ l')
            | PRes.spin => PRes.spin) := by
        rw [resample_sections, hs]
        show (match resampleLoop rd (fuel + 1) 0 [a, b] with
          | PRes.ok t' l' => PRes.ok (Section.reorder_samples { s with samples := t' })
              ((Diag.warnTwoSamples (b.point - a.point).length
                  ((b.radius + a.radius) * 2) ::
                (if (b.point - a.point).length < (b.radius + a.radius) * 2 then
                  [Diag.badSection] else [])) ++ l')
          | PRes.exn k t' l' => PRes.exn k { s with samples := t' }
              ((Diag.warnTwoSamples (b.point - a.point).length
                  ((b.radius + a.radius) * 2) ::
                (if (b.point - a.point).length < (b.radius + a.radius) * 2 then
                  [Diag.badSection] else [])) ++ l')
          | PRes.spin => PRes.spin) = _
        rw [resampleLoop_succ, hstep]
      rw [heq] at hok
      have hlen := resampleLoop_len rd fuel 0 ([a, b].insertIdx 1 x)
      cases hloop : resampleLoop rd fuel 0 ([a, b].insertIdx 1 x) with
      | ok t' l' =>
        rw [hloop] at hok hlen
        have hl' := resampleLoop_log rd fuel 0 ([a, b].insertIdx 1 x) t' l' hloop
        subst hl'
        injection hok with hok1 hok2
        constructor
        · rw [← hok1]
          show 3 ≤ (renumberFrom 0 t').length
          rw [renumberFrom_length]
          have h3 : ([a, b].insertIdx 1 x).length = 3 := by
            rw [List.length_insertIdx 1 [a, b] (by simp)]
            rfl
          simp only [PRes.allStates] at hlen
          omega
        · rw [← hok2, List.append_nil]
      | exn k t' l' =>
        rw [hloop] at hok
        cases hok
      | spin =>
        rw [hloop] at hok
        cases hok

/-- C2 witness: the amended two-sample behaviour instantiated on the
section with samples at distance 3 and resampling distance 5: the samples
survive unchanged up to id renumbering, with the warning logged. -/
theorem claim2_witness :
    cW2.samples = [axSample 0 1 0, axSample 3 1 1] ∧
    resample_sections 2 cW2 5
      = PRes.ok (Section.reorder_samples cW2)
          (Diag.warnTwoSamples
              ((axSample 3 1 1).point - (axSample 0 1 0).point).length
              (((axSample 3 1 1).radius + (axSample 0 1 0).radius) * 2) ::
            (if ((axSample 3 1 1).point - (axSample 0 1 0).point).length
                < ((axSample 3 1 1).radius + (axSample 0 1 0).radius) * 2 then
              [Diag.badSection] else [])) := by
  refine ⟨by simp [cW2, mkSec], ?_⟩
  have h := (claim2_amended cW2 (axSample 0 1 0) (axSample 3 1 1) 5
    (by simp [cW2, mkSec])).1 (Or.inl (by norm_num [axSample, abs_of_nonneg])) 0
  exact h


/-! ### Analysis of `resample_section_front` -/

lemma pyGet_zero {α : Type} (l : List α) : pyGet l 0 = l[0]? := by
  simp [pyGet]

lemma pyGet_one {α : Type} (l : List α) : pyGet l 1 = l[1]? := by
  simp [pyGet]

lemma Vec3.add_sub_cancel_left (a w : Vec3) : (a + w) - a = w := by
  show Vec3.mk (a.x + w.x - a.x) (a.y + w.y - a.y) (a.z + w.z - a.z) = w
  have hx : a.x + w.x - a.x = w.x := by ring
  have hy : a.y + w.y - a.y = w.y := by ring
  have hz : a.z + w.z - a.z = w.z := by ring
  rw [hx, hy, hz]

/-- Stepping a non-negative distance `rd` along the normalized direction
of a vector at least `rd` long travels exactly `rd` (also when `rd = 0`,
where `mathutils` normalisation of the zero vector yields zero). -/
lemma Vec3.length_smul_normalized (rd : ℝ) (v : Vec3) (h0 : 0 ≤ rd) (hle : rd ≤ v.length) :
    (rd • v.normalized).length = rd := by
  rcases eq_or_lt_of_le h0 with h | h
  · rw [← h, Vec3.length_smul, abs_zero, zero_mul]
  · have hv : v.length ≠ 0 := ne_of_gt (lt_of_lt_of_le h hle)
    rw [Vec3.length_smul, Vec3.normalized_length v hv, mul_one, abs_of_nonneg h0]

lemma renumberFrom_getElem (i : ℤ) :
    ∀ (l : List Sample) (k : ℕ),
      (renumberFrom i l)[k]? = (l[k]?).map fun x => { x with id := i + k } := by
  intro l
  induction l generalizing i with
  | nil => intro k; rfl
  | cons x rest ih =>
    intro k
    cases k with
    | zero =>
      rw [renumberFrom]
      simp only [List.getElem?_cons_zero, Nat.cast_zero, add_zero]
      rfl
    | succ k =>
      rw [renumberFrom]
      simp only [List.getElem?_cons_succ]
      rw [ih (i + 1) k]
      have : i + 1 + (k : ℤ) = i + ((k : ℕ) + 1 : ℕ) := by push_cast; ring
      rw [this]

/-- Every sample kept by the extent filter at an index at least 1 lies
outside the sphere. -/
lemma extentKeptSpec_mem (c : Vec3) (r : ℝ) (ign : Bool) :
    ∀ (rest : List Sample) (i : ℕ), 1 ≤ i →
      ∀ y, y ∈ extentKeptSpec c r ign i rest → ¬ is_point_inside_sphere c r y.point := by
  intro rest
  induction rest with
  | nil => intro i hi y hy; simp [extentKeptSpec] at hy
  | cons x rest ih =>
    intro i hi y hy
    rw [extentKeptSpec] at hy
    by_cases hkeep : (i = 0 ∧ ign = true) ∨ ¬ is_point_inside_sphere c r x.point
    · rw [if_pos hkeep] at hy
      rcases List.mem_cons.mp hy with hy | hy
      · subst hy
        rcases hkeep with ⟨hi0, _⟩ | hk
        · omega
        · exact hk
      · exact ih (i + 1) (by omega) y hy
    · rw [if_neg hkeep] at hy
      exact ih (i + 1) (by omega) y hy

/-- A sample outside the sphere survives the extent filter. -/
lemma extentKeptSpec_mem_of (c : Vec3) (r : ℝ) (ign : Bool) :
    ∀ (rest : List Sample) (i : ℕ) (y : Sample), y ∈ rest →
      ¬ is_point_inside_sphere c r y.point → y ∈ extentKeptSpec c r ign i rest := by
  intro rest
  induction rest with
  | nil => intro i y hy; simp at hy
  | cons x rest ih =>
    intro i y hy hout
    rw [extentKeptSpec]
    rcases List.mem_cons.mp hy with hy | hy
    · subst hy
      rw [if_pos (Or.inr hout)]
      exact List.mem_cons_self _ _
    · by_cases hkeep : (i = 0 ∧ ign = true) ∨ ¬ is_point_inside_sphere c r x.point
      · rw [if_pos hkeep]
        exact List.mem_cons_of_mem _ (ih (i + 1) y hy hout)
      · rw [if_neg hkeep]
        exact ih (i + 1) y hy hout

/-- The guarded extent removal on a section with at least 3 samples
replaces the samples by the spec-level filter and returns the spec-level
count with no diagnostics. -/
lemma remove_samples_within_extent_spec (s : Section) (c : Vec3) (r : ℝ) (ign : Bool)
    (h : 3 ≤ s.samples.length) :
    remove_samples_within_extent s c r ign
      = ({ s with samples := extentKeptSpec c r ign 0 s.samples },
         extentRemovedCountSpec c r ign 0 s.samples, []) := by
  have hloop := extentLoop_spec c r ign s.samples 0 0 [] (by simp)
  simp only [List.nil_append, Nat.zero_add] at hloop
  rw [remove_samples_within_extent, if_neg (by omega), if_neg (by omega), hloop]

/-- C4 (amended): `resample_section_front` on a section with at least 3
samples, a non-negative first radius and at least one later sample
outside the clearance radius `samples[0].radius · √2` returns normally;
afterwards the first sample's position is unchanged, the second sample
sits at exactly the clearance distance from it, and no retained sample
after the first is strictly closer than the clearance distance. -/
theorem claim4_amended (s : Section) (s0 : Sample)
    (h3 : 3 ≤ s.samples.length) (hs0 : s.samples[0]? = some s0) (hrad : 0 ≤ s0.radius)
    (hsurv : ∃ j y, 1 ≤ j ∧ s.samples[j]? = some y ∧
      s0.radius * Real.sqrt 2 ≤ (y.point - s0.point).length) :
    ∃ t l, resample_section_front s = PRes.ok t l ∧
      3 ≤ t.samples.length ∧
      (∃ y0, t.samples[0]? = some y0 ∧ y0.point = s0.point) ∧
      (∃ y1, t.samples[1]? = some y1 ∧
        (y1.point - s0.point).length = s0.radius * Real.sqrt 2) ∧
      (∀ k y, 1 ≤ k → t.samples[k]? = some y →
        s0.radius * Real.sqrt 2 ≤ (y.point - s0.point).length) := by
  obtain ⟨rest, hrest⟩ : ∃ rest, s.samples = s0 :: rest := by
    cases hsam : s.samples with
    | nil => rw [hsam] at hs0; cases hs0
    | cons z rest =>
      rw [hsam] at hs0
      simp only [List.getElem?_cons_zero] at hs0
      cases hs0
      exact ⟨rest, rfl⟩
  set rd := s0.radius * Real.sqrt 2 with hrd
  have hrd0 : 0 ≤ rd := mul_nonneg hrad (Real.sqrt_nonneg 2)
  set K := extentKeptSpec s0.point rd true 1 rest with hK
  have hKne : K ≠ [] := by
    obtain ⟨j, y, hj1, hjy, hydist⟩ := hsurv
    have hymem : y ∈ rest := by
      rw [hrest] at hjy
      match j, hj1 with
      | j + 1, _ =>
        simp only [List.getElem?_cons_succ] at hjy
        exact List.getElem?_mem hjy
    have hyout : ¬ is_point_inside_sphere s0.point rd y.point :=
      not_lt.mpr hydist
    have := extentKeptSpec_mem_of s0.point rd true rest 1 y hymem hyout
    intro hnil
    rw [← hK] at this
    rw [hnil] at this
    cases this
  obtain ⟨k0, K', hK'⟩ : ∃ k0 K', K = k0 :: K' := by
    cases hKc : K with
    | nil => exact absurd hKc hKne
    | cons k0 K' => exact ⟨k0, K', rfl⟩
  have hk0out : ¬ is_point_inside_sphere s0.point rd k0.point :=
    extentKeptSpec_mem s0.point rd true rest 1 (le_refl 1) k0
      (by rw [← hK, hK']; exact List.mem_cons_self _ _)
  have hk0dist : rd ≤ (k0.point - s0.point).length := not_lt.mp hk0out
  have hext := remove_samples_within_extent_spec s s0.point rd true h3
  have hkept0 : extentKeptSpec s0.point rd true 0 s.samples = s0 :: K := by
    rw [hrest, extentKeptSpec_head, hK]
  rw [hkept0] at hext
  rw [resample_section_front, pyGet_zero]
  simp only [hs0, ← hrd]
  simp only [hext]
  set aux : Sample :=
    ⟨s0.point + rd • (k0.point - s0.point).normalized, k0.radius, -1⟩ with haux
  have hg1 : pyGet (s0 :: K) 1 = some k0 := by
    rw [pyGet_one, hK']
    simp
  have hg0 : pyGet (s0 :: K) 0 = some s0 := by
    rw [pyGet_zero]
    simp
  rw [show pyGet ({ s with samples := s0 :: K } : Section).samples 1 = some k0 from hg1,
    show pyGet ({ s with samples := s0 :: K } : Section).samples 0 = some s0 from hg0]
  refine ⟨_, _, rfl, ?_, ?_, ?_, ?_⟩
  · show 3 ≤ (renumberFrom 0 ((s0 :: K).insertIdx 1 aux)).length
    rw [renumberFrom_length, hK', List.insertIdx_succ_cons, List.insertIdx_zero]
    simp
  · refine ⟨{ s0 with id := 0 }, ?_, rfl⟩
    show (renumberFrom 0 ((s0 :: K).insertIdx 1 aux))[0]? = _
    rw [renumberFrom_getElem, List.insertIdx_succ_cons, List.insertIdx_zero]
    simp
  · refine ⟨{ aux with id := 1 }, ?_, ?_⟩
    · show (renumberFrom 0 ((s0 :: K).insertIdx 1 aux))[1]? = _
      rw [renumberFrom_getElem, List.insertIdx_succ_cons, List.insertIdx_zero]
      simp
    · show ((s0.point + rd • (k0.point - s0.point).normalized) - s0.point).length = rd
      rw [Vec3.add_sub_cancel_left]
      exact Vec3.length_smul_normalized rd _ hrd0 hk0dist
  · intro k y hk1 hky
    have hky' : (renumberFrom 0 (s0 :: aux :: k0 :: K'))[k]? = some y := by
      have h0 : (renumberFrom 0 ((s0 :: K).insertIdx 1 aux))[k]? = some y := hky
      rw [hK', List.insertIdx_succ_cons, List.insertIdx_zero] at h0
      exact h0
    rw [renumberFrom_getElem] at hky'
    match k, hk1 with
    | 1, _ =>
      simp only [List.getElem?_cons_succ, List.getElem?_cons_zero] at hky'
      have hy := Option.some.inj hky'
      subst hy
      show rd ≤ ((s0.point + rd • (k0.point - s0.point).normalized) - s0.point).length
      rw [Vec3.add_sub_cancel_left, Vec3.length_smul_normalized rd _ hrd0 hk0dist]
    | k + 2, _ =>
      simp only [List.getElem?_cons_succ] at hky'
      cases hz : (k0 :: K')[k]? with
      | none =>
        rw [hz] at hky'
        cases hky'
      | some z =>
        rw [hz] at hky'
        have hy := Option.some.inj hky'
        subst hy
        have hzmem : z ∈ K := by
          rw [hK']
          exact List.getElem?_mem hz
        have hzout := extentKeptSpec_mem s0.point rd true rest 1 (le_refl 1) z
          (by rw [← hK]; exact hzmem)
        exact not_lt.mp hzout

/-- Counterexample to C4: on a two-sample section with the second sample
at distance 1/10 from the first (radius 1), `resample_section_front`
completes normally but the old close sample survives behind the inserted
auxiliary sample, at distance 1/10 — strictly closer to the first sample
than the clearance radius `radius · √2`. -/
theorem claim4_counterexample :
    2 ≤ c4sec.samples.length ∧
    resample_section_front c4sec
      = PRes.ok c4out [Diag.resamplingFront 7, Diag.warnOnlyTwo] ∧
    ∃ y, c4out.samples[2]? = some y ∧
      (y.point - (axSample 0 1 0).point).length
        < (axSample 0 1 0).radius * Real.sqrt 2 := by
  refine ⟨by norm_num [c4sec, mkSec], ?_, ?_⟩
  · have h0 : c4sec.samples[0]? = some (axSample 0 1 0) := by
      simp [c4sec, mkSec]
    have hrem : remove_samples_within_extent c4sec (axSample 0 1 0).point
        ((axSample 0 1 0).radius * Real.sqrt 2) true = (c4sec, 0, [Diag.warnOnlyTwo]) := by
      rw [remove_samples_within_extent,
        if_neg (by norm_num [c4sec, mkSec]), if_pos (by norm_num [c4sec, mkSec])]
    have hg1 : pyGet c4sec.samples 1 = some (axSample (1 / 10) 1 1) := by
      rw [pyGet_one]
      simp [c4sec, mkSec]
    have hg0 : pyGet c4sec.samples 0 = some (axSample 0 1 0) := by
      rw [pyGet_zero]
      exact h0
    have hpos : (axSample 0 1 0).point + ((axSample 0 1 0).radius * Real.sqrt 2) •
        ((axSample (1 / 10) 1 1).point - (axSample 0 1 0).point).normalized
        = Vec3.mk (Real.sqrt 2) 0 0 := by
      have hsub : (axSample (1 / 10) 1 1).point - (axSample 0 1 0).point
          = Vec3.mk (1 / 10) 0 0 := by
        show Vec3.mk (1 / 10 : ℝ) 0 0 - Vec3.mk 0 0 0 = Vec3.mk (1 / 10) 0 0
        rw [Vec3.sub_mk]
        norm_num
      rw [hsub, Vec3.normalized, Vec3.length_axis, if_neg (by norm_num [abs_of_nonneg])]
      show Vec3.mk 0 0 0 + ((1 : ℝ) * Real.sqrt 2) •
        ((1 / |(1 / 10 : ℝ)|) • Vec3.mk (1 / 10) 0 0) = _
      rw [Vec3.smul_mk, Vec3.smul_mk, Vec3.add_mk]
      norm_num [Vec3.mk.injEq, abs_of_nonneg]
    rw [resample_section_front, pyGet_zero]
    simp only [h0]
    simp only [hrem]
    simp only [hg1, hg0]
    rw [hpos]
    rw [show c4sec.samples = [axSample 0 1 0, axSample (1 / 10) 1 1] from rfl,
      List.insertIdx_succ_cons, List.insertIdx_zero, Section.reorder_samples]
    simp only [renumberFrom]
    simp [c4sec, c4out, mkSec, axSample, Section.mk.injEq, Sample.mk.injEq,
      Vec3.mk.injEq, PRes.ok.injEq]
  · refine ⟨axSample (1 / 10) 1 2, by simp [c4out, mkSec], ?_⟩
    have h12 : (1 : ℝ) ≤ Real.sqrt 2 := by
      have h := Real.sqrt_le_sqrt (show (1 : ℝ) ≤ 2 by norm_num)
      rwa [Real.sqrt_one] at h
    have hlen : ((axSample (1 / 10) 1 2).point - (axSample 0 1 0).point).length
        = 1 / 10 := by
      norm_num [axSample, abs_of_nonneg]
    rw [hlen]
    calc (1 : ℝ) / 10 < 1 := by norm_num
      _ ≤ Real.sqrt 2 := h12
      _ = (axSample 0 1 0).radius * Real.sqrt 2 := by norm_num [axSample]

/-- Witness for the amended C4: a three-sample section with samples at 0,
1/2 and 3 (radius 1) satisfies the hypotheses, the survivor at distance 3
being outside the clearance radius √2. -/
theorem claim4_witness :
    ∃ t l, resample_section_front c4wsec = PRes.ok t l ∧
      3 ≤ t.samples.length ∧
      (∃ y0, t.samples[0]? = some y0 ∧ y0.point = (axSample 0 1 0).point) ∧
      (∃ y1, t.samples[1]? = some y1 ∧
        (y1.point - (axSample 0 1 0).point).length
          = (axSample 0 1 0).radius * Real.sqrt 2) ∧
      (∀ k y, 1 ≤ k → t.samples[k]? = some y →
        (axSample 0 1 0).radius * Real.sqrt 2 ≤ (y.point - (axSample 0 1 0).point).length) :=
  claim4_amended c4wsec (axSample 0 1 0)
    (by norm_num [c4wsec, mkSec])
    (by simp [c4wsec, mkSec])
    (by norm_num [axSample])
    ⟨2, axSample 3 1 2, by norm_num, by simp [c4wsec, mkSec], by
      have hlen : ((axSample 3 1 2).point - (axSample 0 1 0).point).length = 3 := by
        norm_num [axSample, abs_of_nonneg]
      rw [hlen]
      have h9 := Real.sqrt_le_sqrt (show (2 : ℝ) ≤ 9 by norm_num)
      rw [show (9 : ℝ) = 3 ^ 2 by norm_num,
        Real.sqrt_sq (by norm_num : (0 : ℝ) ≤ 3)] at h9
      calc (axSample 0 1 0).radius * Real.sqrt 2 = Real.sqrt 2 := by norm_num [axSample]
        _ ≤ 3 := h9⟩

/-- Sequencing only inspects the continuation at the value an `ok` outcome
carries. -/
lemma PRes.andThen_congr {α : Type} (r : PRes α) (f g : α → PRes α)
    (h : ∀ t l, r = PRes.ok t l → f t = g t) : r.andThen f = r.andThen g := by
  cases r with
  | ok t l => rw [PRes.andThen, PRes.andThen, h t l rfl]
  | exn e t l => rfl
  | spin => rfl

/-- Extent removal never touches the tree-linkage fields. -/
lemma remove_extent_children (s : Section) (c : Vec3) (r : ℝ) (ign : Bool) :
    (remove_samples_within_extent s c r ign).1.children = s.children ∧
    (remove_samples_within_extent s c r ign).1.children_ids = s.children_ids := by
  rw [remove_samples_within_extent]
  by_cases h1 : s.samples.length < 2
  · rw [if_pos h1]
    exact ⟨rfl, rfl⟩
  · rw [if_neg h1]
    by_cases h2 : s.samples.length = 2
    · rw [if_pos h2]
      exact ⟨rfl, rfl⟩
    · rw [if_neg h2]
      exact ⟨rfl, rfl⟩

/-- A normal completion of front resampling preserves the tree-linkage
fields. -/
lemma front_children (s t : Section) (l : List Diag)
    (h : resample_section_front s = PRes.ok t l) :
    t.children = s.children ∧ t.children_ids = s.children_ids := by
  rw [resample_section_front] at h
  cases h0 : pyGet s.samples 0 with
  | none =>
    simp only [h0] at h
    cases h
  | some s0 =>
    simp only [h0] at h
    cases h1 : pyGet (remove_samples_within_extent s s0.point
        (s0.radius * Real.sqrt 2) true).1.samples 1 with
    | none =>
      cases h2 : pyGet (remove_samples_within_extent s s0.point
          (s0.radius * Real.sqrt 2) true).1.samples 0 with
      | none => simp only [h1, h2] at h; cases h
      | some s0' => simp only [h1, h2] at h; cases h
    | some s1' =>
      cases h2 : pyGet (remove_samples_within_extent s s0.point
          (s0.radius * Real.sqrt 2) true).1.samples 0 with
      | none => simp only [h1, h2] at h; cases h
      | some s0' =>
        simp only [h1, h2] at h
        cases h
        rw [Section.reorder_samples]
        exact remove_extent_children s s0.point (s0.radius * Real.sqrt 2) true

/-- A normal completion of front resampling preserves `has_children`. -/
lemma front_has_children (s t : Section) (l : List Diag)
    (h : resample_section_front s = PRes.ok t l) : t.has_children = s.has_children := by
  obtain ⟨h1, h2⟩ := front_children s t l h
  rw [Section.has_children, Section.has_children, h1, h2]

/-- The front-then-rear composition of the orchestrator, whose rear gate
reads the post-front state, agrees with the staged composition whose
gates both read the original section. -/
lemma componentsStaged_eq (s : Section) :
    ((if s.has_parent then resample_section_front s else PRes.ok s []).andThen
      fun t => if t.has_children then resample_section_rear t else PRes.ok t [])
    = componentsStaged s := by
  rw [componentsStaged]
  apply PRes.andThen_congr
  intro t l h
  by_cases hp : s.has_parent = true
  · rw [if_pos hp] at h
    rw [front_has_children s t l h]
  · rw [if_neg hp] at h
    cases h
    rfl

/-- The inter-children angle block returns the section unchanged or
raises with the section unchanged; it never mutates. -/
lemma childrenAngleCheck_cases (s : Section) :
    childrenAngleCheck s = PRes.ok s [] ∨
      ∃ e, childrenAngleCheck s = PRes.exn e s [] := by
  rw [childrenAngleCheck]
  by_cases h2 : s.children.length = 2
  · rw [if_pos h2]
    cases h0 : s.children[0]? with
    | none => exact Or.inr ⟨_, rfl⟩
    | some c0 =>
      cases ha1 : pyGet c0.samples 1 with
      | none =>
        cases ha0 : pyGet c0.samples 0 with
        | none => simp only [ha1, ha0]; exact Or.inr ⟨_, rfl⟩
        | some c00 => simp only [ha1, ha0]; exact Or.inr ⟨_, rfl⟩
      | some c01 =>
        cases ha0 : pyGet c0.samples 0 with
        | none => simp only [ha1, ha0]; exact Or.inr ⟨_, rfl⟩
        | some c00 =>
          simp only [ha1, ha0]
          cases h1 : s.children[1]? with
          | none => exact Or.inr ⟨_, rfl⟩
          | some c1 =>
            cases hb1 : pyGet c1.samples 1 with
            | none =>
              cases hb0 : pyGet c1.samples 0 with
              | none => simp only [hb1, hb0]; exact Or.inr ⟨_, rfl⟩
              | some c10 => simp only [hb1, hb0]; exact Or.inr ⟨_, rfl⟩
            | some c11 =>
              cases hb0 : pyGet c1.samples 0 with
              | none => simp only [hb1, hb0]; exact Or.inr ⟨_, rfl⟩
              | some c10 =>
                simp only [hb1, hb0]
                by_cases hz : ((c01.point - c00.point).normalized.length = 0 ∨
                    (c11.point - c10.point).normalized.length = 0)
                · rw [if_pos hz]
                  exact Or.inr ⟨_, rfl⟩
                · rw [if_neg hz]
                  exact Or.inl rfl
  · rw [if_neg h2]
    exact Or.inl rfl

/-- Past the skip gates, the orchestrator is the staged front/rear
composition, followed by the angle block exactly on primary sections. -/
lemma components_nonskip (s : Section) (hA : ¬ s.get_type_string = "AXON")
    (hS : ¬ s.is_short = true) (first lst : Sample)
    (h0 : pyGet s.samples 0 = some first) (hm1 : pyGet s.samples (-1) = some lst)
    (hge : (first.radius + lst.radius) * 2 ≤ compute_section_length s) :
    resample_section_components s =
      if s.is_primary = true then (componentsStaged s).andThen childrenAngleCheck
      else componentsStaged s := by
  rw [resample_section_components, if_neg hA, if_neg hS]
  simp only [h0, hm1]
  rw [if_neg (not_lt.mpr hge)]
  by_cases hp : s.is_primary = true
  · rw [if_pos hp, if_pos hp, componentsStaged_eq]
  · rw [if_neg hp, if_neg hp]
    exact componentsStaged_eq s

/-- C3: `resample_section_components` returns the section unchanged on
the skip gates (AXON type string, `is_short`, arclength below the sum of
the end radii doubled); past the gates it is exactly the staged
composition applying `resample_section_front` precisely when the section
has a parent and `resample_section_rear` precisely when it has children —
for primary sections followed by the non-mutating inter-children angle
block — and stem resampling is never invoked. -/
theorem claim3 (s : Section) :
    ((s.get_type_string = "AXON" ∨ s.is_short = true) →
      resample_section_components s = PRes.ok s []) ∧
    (¬ s.get_type_string = "AXON" → ¬ s.is_short = true →
      ∀ first lst, pyGet s.samples 0 = some first → pyGet s.samples (-1) = some lst →
        (compute_section_length s < (first.radius + lst.radius) * 2 →
          resample_section_components s = PRes.ok s [Diag.cannotResample s.id]) ∧
        ((first.radius + lst.radius) * 2 ≤ compute_section_length s →
          resample_section_components s =
            if s.is_primary = true then (componentsStaged s).andThen childrenAngleCheck
            else componentsStaged s)) ∧
    (childrenAngleCheck s = PRes.ok s [] ∨
      ∃ e, childrenAngleCheck s = PRes.exn e s []) := by
  refine ⟨?_, ?_, childrenAngleCheck_cases s⟩
  · intro h
    rw [resample_section_components]
    by_cases hA : s.get_type_string = "AXON"
    · rw [if_pos hA]
    · rw [if_neg hA]
      rcases h with h | h
      · exact absurd h hA
      · rw [if_pos h]
  · intro hA hS first lst h0 hm1
    constructor
    · intro hlt
      rw [resample_section_components, if_neg hA, if_neg hS]
      simp only [h0, hm1]
      rw [if_pos hlt]
    · exact components_nonskip s hA hS first lst h0 hm1

/-- Witness for C3: a short two-sample basal dendrite trips the
minimal-length gate and is returned unchanged with the diagnostic. -/
theorem claim3_witness :
    resample_section_components c3wsec = PRes.ok c3wsec [Diag.cannotResample 7] :=
  ((claim3 c3wsec).2.1
    (by simp [c3wsec, mkSec, Section.get_type_string])
    (by simp [c3wsec, mkSec])
    (axSample 0 1 0) (axSample 3 1 1)
    (by rw [pyGet_zero]; simp [c3wsec, mkSec])
    (by norm_num [pyGet, c3wsec, mkSec])).1
    (by norm_num [compute_section_length, gapList, c3wsec, mkSec, axSample, abs_of_nonneg])

/-- Front resampling only ever raises the IndexError kind. -/
lemma front_exn_kind (s : Section) (e : PyExn) (t : Section) (l : List Diag)
    (h : resample_section_front s = PRes.exn e t l) : e = PyExn.indexError := by
  rw [resample_section_front] at h
  cases h0 : pyGet s.samples 0 with
  | none =>
    simp only [h0] at h
    cases h
    rfl
  | some s0 =>
    simp only [h0] at h
    cases h1 : pyGet (remove_samples_within_extent s s0.point
        (s0.radius * Real.sqrt 2) true).1.samples 1 with
    | none =>
      cases h2 : pyGet (remove_samples_within_extent s s0.point
          (s0.radius * Real.sqrt 2) true).1.samples 0 with
      | none => simp only [h1, h2] at h; cases h; rfl
      | some s0' => simp only [h1, h2] at h; cases h; rfl
    | some s1' =>
      cases h2 : pyGet (remove_samples_within_extent s s0.point
          (s0.radius * Real.sqrt 2) true).1.samples 0 with
      | none => simp only [h1, h2] at h; cases h; rfl
      | some s0' => simp only [h1, h2] at h; cases h

/-- Front resampling always terminates in a value or an exception. -/
lemma front_ne_spin (s : Section) : resample_section_front s ≠ PRes.spin := by
  intro h
  rw [resample_section_front] at h
  cases h0 : pyGet s.samples 0 with
  | none =>
    simp only [h0] at h
    exact PRes.noConfusion h
  | some s0 =>
    simp only [h0] at h
    cases h1 : pyGet (remove_samples_within_extent s s0.point
        (s0.radius * Real.sqrt 2) true).1.samples 1 with
    | none =>
      cases h2 : pyGet (remove_samples_within_extent s s0.point
          (s0.radius * Real.sqrt 2) true).1.samples 0 with
      | none => simp only [h1, h2] at h; exact PRes.noConfusion h
      | some s0' => simp only [h1, h2] at h; exact PRes.noConfusion h
    | some s1' =>
      cases h2 : pyGet (remove_samples_within_extent s s0.point
          (s0.radius * Real.sqrt 2) true).1.samples 0 with
      | none => simp only [h1, h2] at h; exact PRes.noConfusion h
      | some s0' => simp only [h1, h2] at h; exact PRes.noConfusion h

/-- A normal completion of rear resampling preserves the tree-linkage
fields. -/
lemma rear_children (s t : Section) (l : List Diag)
    (h : resample_section_rear s = PRes.ok t l) :
    t.children = s.children ∧ t.children_ids = s.children_ids := by
  rw [resample_section_rear] at h
  cases h0 : pyGet s.samples.reverse 0 with
  | none =>
    simp only [h0] at h
    cases h
  | some s0 =>
    simp only [h0] at h
    cases h1 : pyGet (remove_samples_within_extent
        { s with samples := s.samples.reverse } s0.point
        (s0.radius * Real.sqrt 2) true).1.samples 1 with
    | none =>
      cases h2 : pyGet (remove_samples_within_extent
          { s with samples := s.samples.reverse } s0.point
          (s0.radius * Real.sqrt 2) true).1.samples 0 with
      | none => simp only [h1, h2] at h; cases h
      | some s0' => simp only [h1, h2] at h; cases h
    | some s1' =>
      cases h2 : pyGet (remove_samples_within_extent
          { s with samples := s.samples.reverse } s0.point
          (s0.radius * Real.sqrt 2) true).1.samples 0 with
      | none => simp only [h1, h2] at h; cases h
      | some s0' =>
        simp only [h1, h2] at h
        cases h
        rw [Section.reorder_samples]
        exact remove_extent_children { s with samples := s.samples.reverse }
          s0.point (s0.radius * Real.sqrt 2) true

/-- Rear resampling only ever raises the IndexError kind. -/
lemma rear_exn_kind (s : Section) (e : PyExn) (t : Section) (l : List Diag)
    (h : resample_section_rear s = PRes.exn e t l) : e = PyExn.indexError := by
  rw [resample_section_rear] at h
  cases h0 : pyGet s.samples.reverse 0 with
  | none =>
    simp only [h0] at h
    cases h
    rfl
  | some s0 =>
    simp only [h0] at h
    cases h1 : pyGet (remove_samples_within_extent
        { s with samples := s.samples.reverse } s0.point
        (s0.radius * Real.sqrt 2) true).1.samples 1 with
    | none =>
      cases h2 : pyGet (remove_samples_within_extent
          { s with samples := s.samples.reverse } s0.point
          (s0.radius * Real.sqrt 2) true).1.samples 0 with
      | none => simp only [h1, h2] at h; cases h; rfl
      | some s0' => simp only [h1, h2] at h; cases h; rfl
    | some s1' =>
      cases h2 : pyGet (remove_samples_within_extent
          { s with samples := s.samples.reverse } s0.point
          (s0.radius * Real.sqrt 2) true).1.samples 0 with
      | none => simp only [h1, h2] at h; cases h; rfl
      | some s0' => simp only [h1, h2] at h; cases h

/-- Rear resampling always terminates in a value or an exception. -/
lemma rear_ne_spin (s : Section) : resample_section_rear s ≠ PRes.spin := by
  intro h
  rw [resample_section_rear] at h
  cases h0 : pyGet s.samples.reverse 0 with
  | none =>
    simp only [h0] at h
    exact PRes.noConfusion h
  | some s0 =>
    simp only [h0] at h
    cases h1 : pyGet (remove_samples_within_extent
        { s with samples := s.samples.reverse } s0.point
        (s0.radius * Real.sqrt 2) true).1.samples 1 with
    | none =>
      cases h2 : pyGet (remove_samples_within_extent
          { s with samples := s.samples.reverse } s0.point
          (s0.radius * Real.sqrt 2) true).1.samples 0 with
      | none => simp only [h1, h2] at h; exact PRes.noConfusion h
      | some s0' => simp only [h1, h2] at h; exact PRes.noConfusion h
    | some s1' =>
      cases h2 : pyGet (remove_samples_within_extent
          { s with samples := s.samples.reverse } s0.point
          (s0.radius * Real.sqrt 2) true).1.samples 0 with
      | none => simp only [h1, h2] at h; exact PRes.noConfusion h
      | some s0' => simp only [h1, h2] at h; exact PRes.noConfusion h

/-- The staged front/rear composition either completes normally with the
children list unchanged, or raises an IndexError. -/
lemma componentsStaged_shape (s : Section) :
    (∃ u l, componentsStaged s = PRes.ok u l ∧ u.children = s.children) ∨
    (∃ u l, componentsStaged s = PRes.exn PyExn.indexError u l) := by
  rw [componentsStaged]
  by_cases hp : s.has_parent = true
  · rw [if_pos hp]
    cases hf : resample_section_front s with
    | ok t l1 =>
      simp only [PRes.andThen]
      have htch : t.children = s.children := (front_children s t l1 hf).1
      by_cases hc : s.has_children = true
      · rw [if_pos hc]
        cases hr : resample_section_rear t with
        | ok u l2 => exact Or.inl ⟨u, l1 ++ l2, rfl, ((rear_children t u l2 hr).1).trans htch⟩
        | exn e u l2 =>
          have he := rear_exn_kind t e u l2 hr
          subst he
          exact Or.inr ⟨u, l1 ++ l2, rfl⟩
        | spin => exact absurd hr (rear_ne_spin t)
      · rw [if_neg hc]
        exact Or.inl ⟨t, l1 ++ [], rfl, htch⟩
    | exn e t l1 =>
      have he := front_exn_kind s e t l1 hf
      subst he
      exact Or.inr ⟨t, l1, rfl⟩
    | spin => exact absurd hf (front_ne_spin s)
  · rw [if_neg hp]
    simp only [PRes.andThen]
    by_cases hc : s.has_children = true
    · rw [if_pos hc]
      cases hr : resample_section_rear s with
      | ok u l2 => exact Or.inl ⟨u, [] ++ l2, rfl, (rear_children s u l2 hr).1⟩
      | exn e u l2 =>
        have he := rear_exn_kind s e u l2 hr
        subst he
        exact Or.inr ⟨u, [] ++ l2, rfl⟩
      | spin => exact absurd hr (rear_ne_spin s)
    · rw [if_neg hc]
      exact Or.inl ⟨s, [] ++ [], rfl, rfl⟩

/-- The inter-children angle block raises an IndexError whenever the
section has exactly two children and one of them has fewer than two
samples. -/
lemma childrenAngleCheck_short (u : Section) (h2 : u.children.length = 2)
    (hshort : ∃ c ∈ u.children, c.samples.length < 2) :
    childrenAngleCheck u = PRes.exn PyExn.indexError u [] := by
  obtain ⟨c0, c1, hch⟩ : ∃ c0 c1, u.children = [c0, c1] := List.length_eq_two.mp h2
  have hg0 : u.children[0]? = some c0 := by rw [hch]; simp
  have hg1 : u.children[1]? = some c1 := by rw [hch]; simp
  rw [childrenAngleCheck, if_pos h2]
  simp only [hg0]
  rcases hshort with ⟨c, hcmem, hclen⟩
  rw [hch] at hcmem
  by_cases hc0 : c0.samples.length < 2
  · have ha1 : pyGet c0.samples 1 = none := by
      rw [pyGet_one]
      exact List.getElem?_eq_none (by omega)
    cases ha0 : pyGet c0.samples 0 with
    | none => simp only [ha1, ha0]
    | some c00 => simp only [ha1, ha0]
  · have hlen0 : 2 ≤ c0.samples.length := not_lt.mp hc0
    have hc1 : c1.samples.length < 2 := by
      rcases List.mem_cons.mp hcmem with h | h
      · subst h
        omega
      · rcases List.mem_cons.mp h with h' | h'
        · subst h'
          exact hclen
        · exact absurd h' (List.not_mem_nil c)
    obtain ⟨v1, ha1⟩ : ∃ v, pyGet c0.samples 1 = some v := by
      rw [pyGet_one]
      exact ⟨_, List.getElem?_eq_getElem (by omega)⟩
    obtain ⟨v0, ha0⟩ : ∃ v, pyGet c0.samples 0 = some v := by
      rw [pyGet_zero]
      exact ⟨_, List.getElem?_eq_getElem (by omega)⟩
    simp only [ha1, ha0, hg1]
    have hb1 : pyGet c1.samples 1 = none := by
      rw [pyGet_one]
      exact List.getElem?_eq_none (by omega)
    cases hb0 : pyGet c1.samples 0 with
    | none => simp only [hb1, hb0]
    | some c10 => simp only [hb1, hb0]

/-- C10: past the orchestrator's gates, a primary section with exactly two
children reaches the inter-children angle block, which reads the first two
samples of each child even though stem resampling is disabled; a child
with fewer than two samples therefore makes the orchestrator raise an
uncaught IndexError. -/
theorem claim10 (s : Section) (hA : ¬ s.get_type_string = "AXON")
    (hS : ¬ s.is_short = true) (first lst : Sample)
    (h0 : pyGet s.samples 0 = some first) (hm1 : pyGet s.samples (-1) = some lst)
    (hge : (first.radius + lst.radius) * 2 ≤ compute_section_length s)
    (hp : s.is_primary = true) (h2 : s.children.length = 2)
    (hshort : ∃ c ∈ s.children, c.samples.length < 2) :
    ∃ t l, resample_section_components s = PRes.exn PyExn.indexError t l := by
  rw [components_nonskip s hA hS first lst h0 hm1 hge, if_pos hp]
  rcases componentsStaged_shape s with ⟨u, l, hok, hch⟩ | ⟨u, l, hexn⟩
  · rw [hok]
    have hcheck : childrenAngleCheck u = PRes.exn PyExn.indexError u [] :=
      childrenAngleCheck_short u (by rw [hch]; exact h2) (by rw [hch]; exact hshort)
    exact ⟨u, l ++ [], by simp only [PRes.andThen, hcheck]⟩
  · rw [hexn]
    exact ⟨u, l, rfl⟩

/-- Witness for C10: a primary two-child section passing all gates whose
first child has no samples. -/
theorem claim10_witness :
    ∃ t l, resample_section_components c10sec = PRes.exn PyExn.indexError t l :=
  claim10 c10sec
    (by simp [c10sec, Section.get_type_string])
    (by simp [c10sec])
    (axSample 0 1 0) (axSample 10 1 1)
    (by rw [pyGet_zero]; simp [c10sec])
    (by norm_num [pyGet, c10sec])
    (by norm_num [compute_section_length, gapList, c10sec, axSample, abs_of_nonneg])
    (by simp [c10sec])
    (by simp [c10sec])
    ⟨Child.mk [], by simp [c10sec], by simp⟩

/-- A gap at most the resampling distance needs no further insertions. -/
lemma gapSteps_nonpos (rd d : ℝ) (hrd : 0 < rd) (h : d ≤ rd) : gapSteps rd d = 0 := by
  rw [gapSteps]
  have hy : (d - rd) / (rd * Math.EPSILON) ≤ 0 :=
    div_nonpos_of_nonpos_of_nonneg (by linarith) (by rw [Math.EPSILON]; positivity)
  have hceil : ⌈(d - rd) / (rd * Math.EPSILON)⌉ ≤ 0 := Int.ceil_le.mpr (by simpa using hy)
  omega

/-- A gap above the resampling distance has a positive measure. -/
lemma gapSteps_pos (rd d : ℝ) (hrd : 0 < rd) (h : rd < d) : 1 ≤ gapSteps rd d := by
  rw [gapSteps]
  have hy : (0 : ℝ) < (d - rd) / (rd * Math.EPSILON) :=
    div_pos (by linarith) (by rw [Math.EPSILON]; positivity)
  have hceil : 0 < ⌈(d - rd) / (rd * Math.EPSILON)⌉ := Int.ceil_pos.mpr hy
  omega

/-- A gap above twice the resampling distance has measure at least two. -/
lemma gapSteps_two (rd d : ℝ) (hrd : 0 < rd) (h : rd * 2 < d) : 2 ≤ gapSteps rd d := by
  rw [gapSteps]
  have hden : (0 : ℝ) < rd * Math.EPSILON := by rw [Math.EPSILON]; positivity
  have h1 : (1 : ℝ) < (d - rd) / (rd * Math.EPSILON) := by
    rw [lt_div_iff hden, Math.EPSILON]
    linarith
  have hceil : (1 : ℤ) < ⌈(d - rd) / (rd * Math.EPSILON)⌉ := Int.lt_ceil.mpr (by simpa using h1)
  omega

/-- Shortening a far gap by `resampling_distance · EPSILON` decreases its
measure by exactly one. -/
lemma gapSteps_sub (rd d : ℝ) (hrd : 0 < rd) (h : rd * 2 < d) :
    gapSteps rd (d - rd * Math.EPSILON) = gapSteps rd d - 1 := by
  have hden : (0 : ℝ) < rd * Math.EPSILON := by rw [Math.EPSILON]; positivity
  have hy : (d - rd * Math.EPSILON - rd) / (rd * Math.EPSILON)
      = (d - rd) / (rd * Math.EPSILON) - 1 := by
    rw [show d - rd * Math.EPSILON - rd = (d - rd) - rd * Math.EPSILON by ring, sub_div,
      div_self (ne_of_gt hden)]
  have h1 : (1 : ℝ) < (d - rd) / (rd * Math.EPSILON) := by
    rw [lt_div_iff hden, Math.EPSILON]
    linarith
  have hceil : (1 : ℤ) < ⌈(d - rd) / (rd * Math.EPSILON)⌉ := Int.lt_ceil.mpr (by simpa using h1)
  rw [gapSteps, gapSteps, hy, Int.ceil_sub_one]
  omega

/-- Subtracting the step toward the next sample from the far endpoint. -/
lemma Vec3.sub_add_smul_normalized (a b : Vec3) (c : ℝ) (hne : (b - a).length ≠ 0) :
    b - (a + c • (b - a).normalized) = (1 - c / (b - a).length) • (b - a) := by
  rw [Vec3.normalized, if_neg hne]
  show Vec3.mk (b.x - (a.x + c * (1 / (b - a).length * (b.x - a.x))))
      (b.y - (a.y + c * (1 / (b - a).length * (b.y - a.y))))
      (b.z - (a.z + c * (1 / (b - a).length * (b.z - a.z))))
      = Vec3.mk ((1 - c / (b - a).length) * (b.x - a.x))
        ((1 - c / (b - a).length) * (b.y - a.y))
        ((1 - c / (b - a).length) * (b.z - a.z))
  simp only [Vec3.mk.injEq]
  refine ⟨?_, ?_, ?_⟩ <;> (field_simp; ring)

/-- The distance from the far endpoint to a point placed at distance `c`
from the near endpoint along the connecting direction. -/
lemma dist_far_endpoint (a b : Vec3) (c : ℝ) (hc : c ≤ (b - a).length)
    (hne : (b - a).length ≠ 0) :
    (b - (a + c • (b - a).normalized)).length = (b - a).length - c := by
  rw [Vec3.sub_add_smul_normalized a b c hne, Vec3.length_smul]
  have hL : 0 < (b - a).length := lt_of_le_of_ne (Vec3.length_nonneg _) (Ne.symm hne)
  have h1 : 0 ≤ 1 - c / (b - a).length := by
    rw [sub_nonneg]
    exact div_le_one_of_le hc (le_of_lt hL)
  rw [abs_of_nonneg h1, sub_mul, one_mul, div_mul_cancel₀ _ hne]

/-- Inversion of the scan step's insertion outcome: the gap was above the
resampling distance and the inserted sample sits at
`resampling_distance · EPSILON` (far branch) or at the midpoint. -/
lemma resampleStep_inserted_inv (rd : ℝ) (i : ℕ) (cur s' : List Sample)
    (h : resampleStep rd i cur = StepRes.inserted s') :
    ∃ (hlt : i + 1 < cur.length) (x : Sample),
      s' = cur.insertIdx (i + 1) x ∧
      ((rd * 2 < ((cur.get ⟨i + 1, hlt⟩).point -
          (cur.get ⟨i, Nat.lt_of_succ_lt hlt⟩).point).length ∧
        x.point = (cur.get ⟨i, Nat.lt_of_succ_lt hlt⟩).point + (rd * Math.EPSILON) •
          ((cur.get ⟨i + 1, hlt⟩).point -
            (cur.get ⟨i, Nat.lt_of_succ_lt hlt⟩).point).normalized) ∨
       (rd < ((cur.get ⟨i + 1, hlt⟩).point -
          (cur.get ⟨i, Nat.lt_of_succ_lt hlt⟩).point).length ∧
        ((cur.get ⟨i + 1, hlt⟩).point -
          (cur.get ⟨i, Nat.lt_of_succ_lt hlt⟩).point).length < rd * 2 ∧
        x.point = (cur.get ⟨i, Nat.lt_of_succ_lt hlt⟩).point +
          (((cur.get ⟨i + 1, hlt⟩).point -
            (cur.get ⟨i, Nat.lt_of_succ_lt hlt⟩).point).length * 0.5) •
          ((cur.get ⟨i + 1, hlt⟩).point -
            (cur.get ⟨i, Nat.lt_of_succ_lt hlt⟩).point).normalized)) := by
  rw [resampleStep] at h
  by_cases h1 : (i : ℤ) = (cur.length : ℤ) - 1
  · rw [if_pos h1] at h
    cases h
  · rw [if_neg h1] at h
    by_cases h2 : i + 1 < cur.length
    · rw [dif_pos h2] at h
      refine ⟨h2, ?_⟩
      set a := cur.get ⟨i, Nat.lt_of_succ_lt h2⟩ with ha
      set b := cur.get ⟨i + 1, h2⟩ with hb
      by_cases h3 : (b.point - a.point).length > rd * 2
      · rw [if_pos h3] at h
        injection h with h
        exact ⟨_, h.symm, Or.inl ⟨h3, rfl⟩⟩
      · rw [if_neg h3] at h
        by_cases h4 : (b.point - a.point).length > rd ∧ (b.point - a.point).length < rd * 2
        · rw [if_pos h4] at h
          injection h with h
          exact ⟨_, h.symm, Or.inr ⟨h4.1, h4.2, rfl⟩⟩
        · rw [if_neg h4] at h
          cases h
    · rw [dif_neg h2] at h
      cases h

/-- Inversion of the scan step's advance outcome. -/
lemma resampleStep_moved_inv (rd : ℝ) (i j : ℕ) (cur : List Sample)
    (h : resampleStep rd i cur = StepRes.moved j) : j = i + 1 ∧ i + 1 < cur.length := by
  rw [resampleStep] at h
  by_cases h1 : (i : ℤ) = (cur.length : ℤ) - 1
  · rw [if_pos h1] at h
    cases h
  · rw [if_neg h1] at h
    by_cases h2 : i + 1 < cur.length
    · rw [dif_pos h2] at h
      set a := cur.get ⟨i, Nat.lt_of_succ_lt h2⟩ with ha
      set b := cur.get ⟨i + 1, h2⟩ with hb
      by_cases h3 : (b.point - a.point).length > rd * 2
      · rw [if_pos h3] at h
        cases h
      · rw [if_neg h3] at h
        by_cases h4 : (b.point - a.point).length > rd ∧ (b.point - a.point).length < rd * 2
        · rw [if_pos h4] at h
          cases h
        · rw [if_neg h4] at h
          injection h with h
          exact ⟨h.symm, h2⟩
    · rw [dif_neg h2] at h
      cases h

/-- The out-of-bounds outcome only happens at an index past the list. -/
lemma resampleStep_oob_inv (rd : ℝ) (i : ℕ) (cur s' : List Sample)
    (h : resampleStep rd i cur = StepRes.oob s') : cur.length ≤ i := by
  rw [resampleStep] at h
  by_cases h1 : (i : ℤ) = (cur.length : ℤ) - 1
  · rw [if_pos h1] at h
    cases h
  · rw [if_neg h1] at h
    by_cases h2 : i + 1 < cur.length
    · rw [dif_pos h2] at h
      set a := cur.get ⟨i, Nat.lt_of_succ_lt h2⟩ with ha
      set b := cur.get ⟨i + 1, h2⟩ with hb
      by_cases h3 : (b.point - a.point).length > rd * 2
      · rw [if_pos h3] at h
        cases h
      · rw [if_neg h3] at h
        by_cases h4 : (b.point - a.point).length > rd ∧ (b.point - a.point).length < rd * 2
        · rw [if_pos h4] at h
          cases h
        · rw [if_neg h4] at h
          cases h
    · omega

/-- Inserting a sample whose two new gaps have a smaller combined measure
than the gap it splits decreases the total measure. -/
lemma gapPhi_insert_lt (rd : ℝ) :
    ∀ (i : ℕ) (L : List Sample) (x : Sample) (hlt : i + 1 < L.length),
      gapSteps rd ((x.point - (L.get ⟨i, Nat.lt_of_succ_lt hlt⟩).point).length) +
        gapSteps rd (((L.get ⟨i + 1, hlt⟩).point - x.point).length) <
        gapSteps rd (((L.get ⟨i + 1, hlt⟩).point -
          (L.get ⟨i, Nat.lt_of_succ_lt hlt⟩).point).length) →
      gapPhi rd (L.insertIdx (i + 1) x) < gapPhi rd L := by
  intro i
  induction i with
  | zero =>
    intro L x hlt hgap
    rcases L with _ | ⟨a, _ | ⟨b, rest⟩⟩
    · simp at hlt
    · simp only [List.length_cons, List.length_nil] at hlt
      omega
    · rw [List.insertIdx_succ_cons, List.insertIdx_zero]
      simp only [gapPhi]
      simp only [List.get] at hgap
      omega
  | succ j ih =>
    intro L x hlt hgap
    rcases L with _ | ⟨a, _ | ⟨b, rest⟩⟩
    · simp at hlt
    · simp only [List.length_cons, List.length_nil] at hlt
      omega
    · rw [List.insertIdx_succ_cons, List.insertIdx_succ_cons]
      simp only [gapPhi]
      have hlt' : j + 1 < (b :: rest).length := by
        simp only [List.length_cons] at hlt ⊢
        omega
      have hih := ih (b :: rest) x hlt' hgap
      rw [List.insertIdx_succ_cons] at hih
      omega

/-- Every insertion of the scan loop strictly decreases the total gap
measure. -/
lemma resampleStep_inserted_phi (rd : ℝ) (hrd : 0 < rd) (i : ℕ) (cur s' : List Sample)
    (h : resampleStep rd i cur = StepRes.inserted s') :
    gapPhi rd s' < gapPhi rd cur := by
  obtain ⟨hlt, x, rfl, hbr⟩ := resampleStep_inserted_inv rd i cur s' h
  apply gapPhi_insert_lt rd i cur x hlt
  rcases hbr with ⟨hfar, hx⟩ | ⟨hm1, hm2, hx⟩
  · have hd0 : (0 : ℝ) < ((cur.get ⟨i + 1, hlt⟩).point -
        (cur.get ⟨i, Nat.lt_of_succ_lt hlt⟩).point).length := by linarith
    have hcle : rd * Math.EPSILON ≤ ((cur.get ⟨i + 1, hlt⟩).point -
        (cur.get ⟨i, Nat.lt_of_succ_lt hlt⟩).point).length := by
      rw [Math.EPSILON]
      nlinarith
    have hxa : (x.point - (cur.get ⟨i, Nat.lt_of_succ_lt hlt⟩).point).length
        = rd * Math.EPSILON := by
      rw [hx, Vec3.add_sub_cancel_left]
      exact Vec3.length_smul_normalized (rd * Math.EPSILON) _
        (by rw [Math.EPSILON]; positivity) hcle
    have hbx : ((cur.get ⟨i + 1, hlt⟩).point - x.point).length
        = ((cur.get ⟨i + 1, hlt⟩).point -
            (cur.get ⟨i, Nat.lt_of_succ_lt hlt⟩).point).length - rd * Math.EPSILON := by
      rw [hx]
      exact dist_far_endpoint _ _ _ hcle (ne_of_gt hd0)
    rw [hxa, hbx, gapSteps_sub rd _ hrd hfar,
      gapSteps_nonpos rd (rd * Math.EPSILON) hrd (by rw [Math.EPSILON]; nlinarith)]
    have h2 := gapSteps_two rd _ hrd hfar
    omega
  · have hd0 : (0 : ℝ) < ((cur.get ⟨i + 1, hlt⟩).point -
        (cur.get ⟨i, Nat.lt_of_succ_lt hlt⟩).point).length := by linarith
    have hcle : ((cur.get ⟨i + 1, hlt⟩).point -
        (cur.get ⟨i, Nat.lt_of_succ_lt hlt⟩).point).length * 0.5 ≤
        ((cur.get ⟨i + 1, hlt⟩).point -
          (cur.get ⟨i, Nat.lt_of_succ_lt hlt⟩).point).length := by linarith
    have hxa : (x.point - (cur.get ⟨i, Nat.lt_of_succ_lt hlt⟩).point).length
        = ((cur.get ⟨i + 1, hlt⟩).point -
            (cur.get ⟨i, Nat.lt_of_succ_lt hlt⟩).point).length * 0.5 := by
      rw [hx, Vec3.add_sub_cancel_left]
      exact Vec3.length_smul_normalized _ _ (by linarith) hcle
    have hbx : ((cur.get ⟨i + 1, hlt⟩).point - x.point).length
        = ((cur.get ⟨i + 1, hlt⟩).point -
            (cur.get ⟨i, Nat.lt_of_succ_lt hlt⟩).point).length -
          ((cur.get ⟨i + 1, hlt⟩).point -
            (cur.get ⟨i, Nat.lt_of_succ_lt hlt⟩).point).length * 0.5 := by
      rw [hx]
      exact dist_far_endpoint _ _ _ hcle (ne_of_gt hd0)
    rw [hxa, hbx]
    rw [gapSteps_nonpos rd _ hrd (by linarith),
      gapSteps_nonpos rd _ hrd (by linarith)]
    have h1 := gapSteps_pos rd _ hrd hm1
    omega

/-- Between insertions the scan only advances, so from any in-range index
it reaches a break or an insertion within `length - i` steps. -/
lemma resampleLoop_term_inner (rd : ℝ) (L : List Sample)
    (hins : ∀ i s', i < L.length → resampleStep rd i L = StepRes.inserted s' →
      ∃ fuel t, resampleLoop rd fuel 0 s' = PRes.ok t []) :
    ∀ (k i : ℕ), i < L.length → L.length - i ≤ k →
      ∃ fuel t, resampleLoop rd fuel i L = PRes.ok t [] := by
  intro k
  induction k with
  | zero =>
    intro i hi hk
    exact absurd hk (by omega)
  | succ k ihk =>
    intro i hi hk
    cases hstep : resampleStep rd i L with
    | brk s' =>
      refine ⟨1, s', ?_⟩
      show resampleLoop rd (0 + 1) i L = PRes.ok s' []
      rw [resampleLoop_succ, hstep]
    | oob s' =>
      have := resampleStep_oob_inv rd i L s' hstep
      omega
    | inserted s' =>
      obtain ⟨fuel, t, hloop⟩ := hins i s' hi hstep
      refine ⟨fuel + 1, t, ?_⟩
      rw [resampleLoop_succ, hstep]
      exact hloop
    | moved j =>
      obtain ⟨hj, hjlt⟩ := resampleStep_moved_inv rd i j L hstep
      subst hj
      obtain ⟨fuel, t, hloop⟩ := ihk (i + 1) hjlt (by omega)
      refine ⟨fuel + 1, t, ?_⟩
      rw [resampleLoop_succ, hstep]
      exact hloop

/-- The scan loop terminates normally from any in-range index, by strong
induction on the total gap measure. -/
lemma resampleLoop_term (rd : ℝ) (hrd : 0 < rd) :
    ∀ (n : ℕ) (L : List Sample) (i : ℕ), gapPhi rd L ≤ n → i < L.length →
      ∃ fuel t, resampleLoop rd fuel i L = PRes.ok t [] := by
  intro n
  induction n with
  | zero =>
    intro L i hphi hi
    refine resampleLoop_term_inner rd L ?_ L.length i hi (by omega)
    intro i' s' hi' hstep
    have := resampleStep_inserted_phi rd hrd i' L s' hstep
    omega
  | succ n ih =>
    intro L i hphi hi
    refine resampleLoop_term_inner rd L ?_ L.length i hi (by omega)
    intro i' s' hi' hstep
    have hdec := resampleStep_inserted_phi rd hrd i' L s' hstep
    have hlen := resampleStep_inserted_len rd i' L s' hstep
    exact ih s' 0 (by omega) (by omega)

/-- `resample_sections` terminates normally on every section for every
positive resampling distance, given enough fuel. -/
lemma resample_sections_term (rd : ℝ) (hrd : 0 < rd) (s : Section) :
    ∃ fuel t l, resample_sections fuel s rd = PRes.ok t l := by
  cases hs : s.samples with
  | nil =>
    refine ⟨0, s, [Diag.errNoSamples], ?_⟩
    rw [resample_sections]
    simp only [hs]
  | cons a rest =>
    cases rest with
    | nil =>
      refine ⟨0, s, [Diag.errOneSample], ?_⟩
      rw [resample_sections]
      simp only [hs]
    | cons b rest2 =>
      obtain ⟨fuel, t, hloop⟩ := resampleLoop_term rd hrd (gapPhi rd s.samples)
        s.samples 0 le_rfl (by rw [hs]; simp)
      refine ⟨fuel, Section.reorder_samples { s with samples := t },
        (if rest2.isEmpty then
          Diag.warnTwoSamples ((b.point - a.point).length) ((b.radius + a.radius) * 2) ::
            (if (b.point - a.point).length < (b.radius + a.radius) * 2
             then [Diag.badSection] else [])
         else []) ++ [], ?_⟩
      rw [resample_sections]
      rw [hs] at hloop
      simp only [hs, hloop]

/-- C9 (amended): for every positive resampling distance the scan loop of
`resample_sections` terminates — with enough fuel the call returns
normally on every section — and the midpoint branch does leave both of
its two new gaps strictly below the resampling distance.  The far-gap
branch, however, only shortens the long gap by
`resampling_distance · EPSILON`, so a gap above twice the resampling
distance generally survives the insertion that it triggered. -/
theorem claim9_amended (rd : ℝ) (hrd : 0 < rd) :
    (∀ s : Section, ∃ fuel t l, resample_sections fuel s rd = PRes.ok t l) ∧
    (∀ (L : List Sample) (i : ℕ) (a b : Sample),
      L[i]? = some a → L[i + 1]? = some b →
      rd < (b.point - a.point).length → (b.point - a.point).length < rd * 2 →
      ∃ x, resampleStep rd i L = StepRes.inserted (L.insertIdx (i + 1) x) ∧
        (x.point - a.point).length < rd ∧ (b.point - x.point).length < rd) := by
  constructor
  · exact resample_sections_term rd hrd
  · intro L i a b ha hb h1 h2
    have hlt : i + 1 < L.length := by
      by_contra hc
      rw [List.getElem?_eq_none (by omega)] at hb
      cases hb
    obtain rfl : a = L.get ⟨i, Nat.lt_of_succ_lt hlt⟩ := by
      rw [List.getElem?_eq_getElem (Nat.lt_of_succ_lt hlt)] at ha
      exact (Option.some.inj ha).symm
    obtain rfl : b = L.get ⟨i + 1, hlt⟩ := by
      rw [List.getElem?_eq_getElem hlt] at hb
      exact (Option.some.inj hb).symm
    have hd0 : (0 : ℝ) < ((L.get ⟨i + 1, hlt⟩).point -
        (L.get ⟨i, Nat.lt_of_succ_lt hlt⟩).point).length := by linarith
    have hcle : ((L.get ⟨i + 1, hlt⟩).point -
        (L.get ⟨i, Nat.lt_of_succ_lt hlt⟩).point).length * 0.5 ≤
        ((L.get ⟨i + 1, hlt⟩).point -
          (L.get ⟨i, Nat.lt_of_succ_lt hlt⟩).point).length := by linarith
    have hxa : (((L.get ⟨i, Nat.lt_of_succ_lt hlt⟩).point +
        (((L.get ⟨i + 1, hlt⟩).point -
          (L.get ⟨i, Nat.lt_of_succ_lt hlt⟩).point).length * 0.5) •
          ((L.get ⟨i + 1, hlt⟩).point -
            (L.get ⟨i, Nat.lt_of_succ_lt hlt⟩).point).normalized) -
        (L.get ⟨i, Nat.lt_of_succ_lt hlt⟩).point).length
        = ((L.get ⟨i + 1, hlt⟩).point -
            (L.get ⟨i, Nat.lt_of_succ_lt hlt⟩).point).length * 0.5 := by
      rw [Vec3.add_sub_cancel_left]
      exact Vec3.length_smul_normalized _ _ (by linarith) hcle
    have hbx : ((L.get ⟨i + 1, hlt⟩).point -
        ((L.get ⟨i, Nat.lt_of_succ_lt hlt⟩).point +
          (((L.get ⟨i + 1, hlt⟩).point -
            (L.get ⟨i, Nat.lt_of_succ_lt hlt⟩).point).length * 0.5) •
          ((L.get ⟨i + 1, hlt⟩).point -
            (L.get ⟨i, Nat.lt_of_succ_lt hlt⟩).point).normalized)).length
        = ((L.get ⟨i + 1, hlt⟩).point -
            (L.get ⟨i, Nat.lt_of_succ_lt hlt⟩).point).length -
          ((L.get ⟨i + 1, hlt⟩).point -
            (L.get ⟨i, Nat.lt_of_succ_lt hlt⟩).point).length * 0.5 :=
      dist_far_endpoint _ _ _ hcle (ne_of_gt hd0)
    refine ⟨⟨(L.get ⟨i, Nat.lt_of_succ_lt hlt⟩).point +
        (((L.get ⟨i + 1, hlt⟩).point -
          (L.get ⟨i, Nat.lt_of_succ_lt hlt⟩).point).length * 0.5) •
          ((L.get ⟨i + 1, hlt⟩).point -
            (L.get ⟨i, Nat.lt_of_succ_lt hlt⟩).point).normalized,
        ((L.get ⟨i + 1, hlt⟩).radius + (L.get ⟨i, Nat.lt_of_succ_lt hlt⟩).radius) * 0.5,
        -1⟩, ?_, ?_, ?_⟩
    · rw [resampleStep, if_neg (by omega), dif_pos hlt]
      rw [if_neg (not_lt.mpr (le_of_lt h2)), if_pos ⟨h1, h2⟩]
    · exact lt_of_le_of_lt (le_of_eq hxa) (by linarith)
    · exact lt_of_le_of_lt (le_of_eq hbx) (by linarith)

/-- Counterexample to C9's "below the threshold" part: with resampling
distance 5/2 and a gap of 10, the far branch inserts a sample at distance
(5/2) · EPSILON = 99/40 from the first sample, and the remaining adjacent
gap 10 − 99/40 still exceeds twice the resampling distance. -/
theorem claim9_counterexample :
    (0 : ℝ) < 5 / 2 ∧
    resampleStep (5 / 2) 0 [axSample 0 1 0, axSample 10 1 1]
      = StepRes.inserted [axSample 0 1 0, ⟨⟨99 / 40, 0, 0⟩, 1, -1⟩, axSample 10 1 1] ∧
    ((axSample 10 1 1).point - (⟨⟨99 / 40, 0, 0⟩, 1, -1⟩ : Sample).point).length
      > 5 / 2 * 2 := by
  refine ⟨by norm_num, ?_, ?_⟩
  · rw [resampleStep]
    rw [if_neg (by norm_num), dif_pos (by norm_num)]
    simp only [List.get]
    norm_num [axSample, abs_of_nonneg, Vec3.normalized, List.insertIdx, Math.EPSILON]
  · norm_num [axSample, abs_of_nonneg]

/-- Witness for the amended C9 at the concrete resampling distance 5/2. -/
theorem claim9_witness :
    (0 : ℝ) < 5 / 2 ∧
    ∀ s : Section, ∃ fuel t l, resample_sections fuel s (5 / 2) = PRes.ok t l :=
  ⟨by norm_num, (claim9_amended (5 / 2) (by norm_num)).1⟩

end
